import Mathlib

/-!
# Bybit wallet tracker bot: request signing and response normalisation

A shallow embedding of `src/bot.js` (the Bybit V5 request signer, the API
client's envelope handling, the three response normalisers and the two access
predicates) together with the fragment of ECMAScript semantics that the code
relies on: Number values, `ToString`, `ToNumber`, `parseFloat`, `parseInt`,
truthiness, property access, own-property ordering of ordinary objects,
`JSON.stringify` and the `application/x-www-form-urlencoded` serialiser of
`URLSearchParams`.

Strings are Lean strings, i.e. sequences of Unicode scalar values; an
ECMAScript string holding a lone surrogate has no counterpart here.
-/

set_option exponentiation.threshold 8192

namespace BybitBot

/-! ## ECMAScript Number values -/

/-- An ECMAScript Number (IEEE-754 binary64). `fin neg m e` denotes
`(-1)^neg * m * 2^e`, kept in the canonical form `m < 2^53`, `-1074 ≤ e ≤ 971`
and (`2^52 ≤ m` or `e = -1074`); the two zeros are `fin false 0 (-1074)` and
`fin true 0 (-1074)`. -/
inductive JSNum where
  | nan : JSNum
  | inf (neg : Bool) : JSNum
  | fin (neg : Bool) (mant : Nat) (exp : Int) : JSNum
  deriving DecidableEq, Repr

namespace JSNum

/-- Floor of the binary logarithm, by repeated halving (the first argument is
the recursion budget; `log2Floor n n` is exact). -/
def log2Floor : Nat → Nat → Nat
  | 0, _ => 0
  | f + 1, n => if n < 2 then 0 else log2Floor f (n / 2) + 1

/-- Decides `a / b < 2 ^ e` for `b > 0`. -/
def ratioLtPow2 (a b : Nat) (e : Int) : Bool :=
  decide (a * 2 ^ (-e).toNat < b * 2 ^ e.toNat)

/-- The Number value for the real `±a / b` (`b > 0`): round to nearest, ties to
even, overflow to infinity. This is the operation the language standard
writes 𝔽(x). -/
def roundRatio (neg : Bool) (a b : Nat) : JSNum :=
  if a = 0 then fin neg 0 (-1074) else
  let e0 : Int := (log2Floor a a : Int) - (log2Floor b b : Int)
  let e : Int := if ratioLtPow2 a b e0 then e0 - 1 else e0
  let q : Int := max (e - 52) (-1074)
  let num : Nat := a * 2 ^ (-q).toNat
  let den : Nat := b * 2 ^ q.toNat
  let fl : Nat := num / den
  let rem : Nat := num % den
  let m : Nat :=
    if 2 * rem < den then fl
    else if den < 2 * rem then fl + 1
    else if fl % 2 = 0 then fl else fl + 1
  let q2 : Int := if m = 2 ^ 53 then q + 1 else q
  let m2 : Nat := if m = 2 ^ 53 then 2 ^ 52 else m
  if 971 < q2 then inf neg else fin neg m2 q2

/-- The Number value of the decimal `±digits * 10 ^ exp10`: every digit counts
toward the rounding, as in V8. -/
def ofDecimal (neg : Bool) (digits : Nat) (exp10 : Int) : JSNum :=
  roundRatio neg (digits * 10 ^ exp10.toNat) (10 ^ (-exp10).toNat)

/-- The Number value of a natural number. -/
def ofNat (n : Nat) : JSNum := roundRatio false n 1

/-- Positive zero. -/
def zero : JSNum := fin false 0 (-1074)

/-- The Number 1. -/
def one : JSNum := ofNat 1

/-- Holds for `+0` and `-0`. -/
def isZero : JSNum → Bool
  | fin _ m _ => m == 0
  | _ => false

/-- Holds for `NaN`. -/
def isNaN : JSNum → Bool
  | nan => true
  | _ => false

/-- The comparison `x > 0`. -/
def gtZero : JSNum → Bool
  | inf neg => !neg
  | fin neg m _ => !neg && decide (0 < m)
  | nan => false

/-- The comparison `x === 0` (true for both zeros). -/
def strictEqZero (x : JSNum) : Bool := x.isZero

/-- Truthiness of a Number: false for `+0`, `-0` and `NaN`. -/
def truthy : JSNum → Bool
  | nan => false
  | inf _ => true
  | fin _ m _ => decide (m ≠ 0)

/-- Decides `m * 2 ^ e < 10 ^ n`. -/
def ltPow10 (m : Nat) (e n : Int) : Bool :=
  decide (m * 2 ^ e.toNat * 10 ^ (-n).toNat < 10 ^ n.toNat * 2 ^ (-e).toNat)

/-- The least `n` with `m * 2 ^ e < 10 ^ n`, for `m > 0`: a first estimate from
the binary logarithm, then an exact search around it. -/
def decimalExponent (m : Nat) (e : Int) : Int :=
  let l : Int := (log2Floor m m : Int) + e
  let est : Int := l * 30103 / 100000
  match ([est - 1, est, est + 1, est + 2, est + 3].find? fun n => ltPow10 m e n) with
  | some n => n
  | none => est + 3

/-- The `k`-digit decimal closest to `m * 2 ^ e` that rounds back to it, if
there is one: the result `(s, n)` stands for `s * 10 ^ (n - k)` with
`10 ^ (k - 1) ≤ s < 10 ^ k`. Here `n0 = decimalExponent m e`. -/
def digitsOfLength (m : Nat) (e n0 : Int) (k : Nat) : Option (Nat × Int) :=
  let t : Int := n0 - k
  let num : Nat := m * 2 ^ e.toNat * 10 ^ (-t).toNat
  let den : Nat := 2 ^ (-e).toNat * 10 ^ t.toNat
  let fl : Nat := num / den
  let rem : Nat := num % den
  let ok : Nat → Bool := fun s =>
    roundRatio false (s * 10 ^ t.toNat) (10 ^ (-t).toNat) == fin false m e
  let norm : Nat → Nat × Int := fun s =>
    if s = 10 ^ k then (10 ^ (k - 1), n0 + 1) else (s, n0)
  match ok fl, ok (fl + 1) with
  | false, false => none
  | true, false => some (norm fl)
  | false, true => some (norm (fl + 1))
  | true, true =>
    if 2 * rem < den then some (norm fl)
    else if den < 2 * rem then some (norm (fl + 1))
    else if fl % 2 = 0 then some (norm fl) else some (norm (fl + 1))

/-- The shortest digit string that rounds back to `m * 2 ^ e`: tries the
lengths `k, k + 1, ...` (seventeen digits always suffice). The result is
`(s, k, n)`. -/
def shortestDigits (m : Nat) (e n0 : Int) : Nat → Nat → Nat × Nat × Int
  | 0, k => (m * 2 ^ e.toNat * 10 ^ (-(n0 - k)).toNat / (2 ^ (-e).toNat * 10 ^ (n0 - k).toNat), k, n0)
  | fuel + 1, k =>
    match digitsOfLength m e n0 k with
    | some (s, n) => (s, k, n)
    | none => shortestDigits m e n0 fuel (k + 1)

/-- The decimal digits of a natural number. -/
def natDigits (n : Nat) : List Char := Nat.toDigits 10 n

/-- The text of a positive finite Number from its shortest digits `s` (there
are `k` of them) and decimal exponent `n`, as `Number::toString` lays it out. -/
def layoutDigits (s k : Nat) (n : Int) : List Char :=
  let ds := natDigits s
  if (k : Int) ≤ n ∧ n ≤ 21 then
    ds ++ List.replicate (n.toNat - k) '0'
  else if 0 < n ∧ n ≤ 21 then
    ds.take n.toNat ++ '.' :: ds.drop n.toNat
  else if -6 < n ∧ n ≤ 0 then
    '0' :: '.' :: (List.replicate (-n).toNat '0' ++ ds)
  else
    let ex : Int := n - 1
    let sign : Char := if ex < 0 then '-' else '+'
    let mag : List Char := natDigits ex.natAbs
    if k = 1 then ds ++ 'e' :: sign :: mag
    else ds.take 1 ++ '.' :: (ds.drop 1 ++ 'e' :: sign :: mag)

/-- The operation `Number::toString(x)` with radix 10. -/
def toChars : JSNum → List Char
  | nan => "NaN".toList
  | inf false => "Infinity".toList
  | inf true => "-Infinity".toList
  | fin neg m e =>
    if m = 0 then ['0'] else
    let r := shortestDigits m e (decimalExponent m e) 17 1
    let body := layoutDigits r.1 r.2.1 r.2.2
    if neg then '-' :: body else body

end JSNum

/-! ## Numeric text: `parseFloat`, `parseInt`, `StringToNumber` -/

/-- The class `StrWhiteSpaceChar`: white space and line terminators. -/
def isStrWhiteSpaceChar (c : Char) : Bool :=
  let n := c.toNat
  n == 0x09 || n == 0x0A || n == 0x0B || n == 0x0C || n == 0x0D || n == 0x20 ||
  n == 0xA0 || n == 0x1680 || (0x2000 ≤ n && n ≤ 0x200A) || n == 0x2028 ||
  n == 0x2029 || n == 0x202F || n == 0x205F || n == 0x3000 || n == 0xFEFF

/-- The value of a digit in a radix up to 16, if the character is one. -/
def radixDigit? (radix : Nat) (c : Char) : Option Nat :=
  let n := c.toNat
  let v : Nat :=
    if 48 ≤ n ∧ n ≤ 57 then n - 48
    else if 97 ≤ n ∧ n ≤ 102 then n - 87
    else if 65 ≤ n ∧ n ≤ 70 then n - 55
    else 16
  if v < radix then some v else none

/-- Whether the character is a digit of the radix. -/
def isRadixDigit (radix : Nat) (c : Char) : Bool := (radixDigit? radix c).isSome

/-- The integer written by a digit string in the given radix. -/
def radixValue (radix : Nat) (ds : List Char) : Nat :=
  ds.foldl (fun acc c => radix * acc + (radixDigit? radix c).getD 0) 0

/-- The mathematical value of a `StrUnsignedDecimalLiteral`. -/
inductive UDecimal where
  | infinity : UDecimal
  | dec (digits : Nat) (exp10 : Int) : UDecimal
  deriving DecidableEq, Repr

/-- Splits off the sign of a signed literal. -/
def splitSign : List Char → Bool × List Char
  | '+' :: r => (false, r)
  | '-' :: r => (true, r)
  | r => (false, r)

/-- The longest `ExponentPart` at the head of the text, with what follows it. -/
def scanExponent : List Char → Option (Int × List Char)
  | [] => none
  | c :: rest =>
    if c == 'e' || c == 'E' then
      let sr := splitSign rest
      let ds := sr.2.takeWhile (isRadixDigit 10)
      if ds.isEmpty then none
      else
        let v : Int := (radixValue 10 ds : Nat)
        some (if sr.1 then -v else v, sr.2.dropWhile (isRadixDigit 10))
    else none

/-- The longest prefix of the text that is a `StrUnsignedDecimalLiteral`, with
what follows it; `none` when no prefix is one. -/
def scanUnsignedDecimal (cs : List Char) : Option (UDecimal × List Char) :=
  if "Infinity".toList.isPrefixOf cs then some (UDecimal.infinity, cs.drop 8) else
  let ip := cs.takeWhile (isRadixDigit 10)
  let r1 := cs.dropWhile (isRadixDigit 10)
  let fp : List Char := match r1 with
    | '.' :: r => r.takeWhile (isRadixDigit 10)
    | _ => []
  let r2 : List Char := match r1 with
    | '.' :: r => r.dropWhile (isRadixDigit 10)
    | _ => r1
  if ip.isEmpty && fp.isEmpty then none
  else
    match scanExponent r2 with
    | some (x, r3) => some (UDecimal.dec (radixValue 10 (ip ++ fp)) (x - fp.length), r3)
    | none => some (UDecimal.dec (radixValue 10 (ip ++ fp)) (-(fp.length : Int)), r2)

/-- The global function `parseFloat` on the text of its argument. -/
def parseFloatChars (cs : List Char) : JSNum :=
  let sr := splitSign (cs.dropWhile isStrWhiteSpaceChar)
  match scanUnsignedDecimal sr.2 with
  | none => JSNum.nan
  | some (UDecimal.infinity, _) => JSNum.inf sr.1
  | some (UDecimal.dec d x, _) => JSNum.ofDecimal sr.1 d x

/-- The global function `parseInt` (no radix argument) on the text of its
argument. -/
def parseIntChars (cs : List Char) : JSNum :=
  let sr := splitSign (cs.dropWhile isStrWhiteSpaceChar)
  let hex : Bool := match sr.2 with
    | '0' :: x :: _ => x == 'x' || x == 'X'
    | _ => false
  let radix : Nat := if hex then 16 else 10
  let body : List Char := if hex then sr.2.drop 2 else sr.2
  let ds := body.takeWhile (isRadixDigit radix)
  if ds.isEmpty then JSNum.nan else JSNum.roundRatio sr.1 (radixValue radix ds) 1

/-- A whole text read as a non-decimal integer literal body in the radix. -/
def radixLiteral (radix : Nat) (ds : List Char) : JSNum :=
  if !ds.isEmpty && ds.all (isRadixDigit radix) then JSNum.ofNat (radixValue radix ds)
  else JSNum.nan

/-- A whole text read as a `StrDecimalLiteral`. -/
def decimalLiteral (cs : List Char) : JSNum :=
  let sr := splitSign cs
  match scanUnsignedDecimal sr.2 with
  | some (UDecimal.infinity, []) => JSNum.inf sr.1
  | some (UDecimal.dec d x, []) => JSNum.ofDecimal sr.1 d x
  | _ => JSNum.nan

/-- Removes white space at both ends. -/
def trimWhiteSpace (cs : List Char) : List Char :=
  ((cs.dropWhile isStrWhiteSpaceChar).reverse.dropWhile isStrWhiteSpaceChar).reverse

/-- The operation `StringToNumber`. -/
def stringToNumber (cs : List Char) : JSNum :=
  match trimWhiteSpace cs with
  | [] => JSNum.zero
  | '0' :: x :: rest =>
    if x == 'x' || x == 'X' then radixLiteral 16 rest
    else if x == 'o' || x == 'O' then radixLiteral 8 rest
    else if x == 'b' || x == 'B' then radixLiteral 2 rest
    else decimalLiteral ('0' :: x :: rest)
  | t => decimalLiteral t

/-! ## ECMAScript values -/

/-- An error object, as far as the program looks at one: its `message`. -/
structure JSError where
  message : String
  deriving DecidableEq, Repr

deriving instance DecidableEq for Except

/-- The TypeError that `OrdinaryToPrimitive` throws when neither `toString` nor
`valueOf` gives a primitive (with the message V8 gives). -/
def cannotConvert : JSError := ⟨"Cannot convert object to primitive value"⟩

/-- The language values the program handles: the values of a parsed JSON text,
and `undefined` for what is absent. The properties of an object are listed in
own-property order; their keys are pairwise distinct. -/
inductive JSValue where
  | undefined : JSValue
  | null : JSValue
  | bool (b : Bool) : JSValue
  | num (n : JSNum) : JSValue
  | str (s : String) : JSValue
  | arr (items : List JSValue) : JSValue
  | obj (props : List (String × JSValue)) : JSValue
  deriving Repr

/-- The own properties of an object, in own-property order. -/
abbrev Props := List (String × JSValue)

mutual
/-- Equality of values is decidable. -/
def JSValue.decEq : (a b : JSValue) → Decidable (a = b)
  | .undefined, b =>
    match b with
    | .undefined => isTrue rfl
    | .null | .bool _ | .num _ | .str _ | .arr _ | .obj _ => isFalse (fun h => nomatch h)
  | .null, b =>
    match b with
    | .null => isTrue rfl
    | .undefined | .bool _ | .num _ | .str _ | .arr _ | .obj _ => isFalse (fun h => nomatch h)
  | .bool x, b =>
    match b with
    | .bool y => if h : x = y then isTrue (congrArg JSValue.bool h)
      else isFalse (fun h2 => h (JSValue.bool.inj h2))
    | .undefined | .null | .num _ | .str _ | .arr _ | .obj _ => isFalse (fun h => nomatch h)
  | .num x, b =>
    match b with
    | .num y => if h : x = y then isTrue (congrArg JSValue.num h)
      else isFalse (fun h2 => h (JSValue.num.inj h2))
    | .undefined | .null | .bool _ | .str _ | .arr _ | .obj _ => isFalse (fun h => nomatch h)
  | .str x, b =>
    match b with
    | .str y => if h : x = y then isTrue (congrArg JSValue.str h)
      else isFalse (fun h2 => h (JSValue.str.inj h2))
    | .undefined | .null | .bool _ | .num _ | .arr _ | .obj _ => isFalse (fun h => nomatch h)
  | .arr xs, b =>
    match b with
    | .arr ys =>
      match JSValue.decEqList xs ys with
      | isTrue h => isTrue (congrArg JSValue.arr h)
      | isFalse h => isFalse (fun h2 => h (JSValue.arr.inj h2))
    | .undefined | .null | .bool _ | .num _ | .str _ | .obj _ => isFalse (fun h => nomatch h)
  | .obj xs, b =>
    match b with
    | .obj ys =>
      match JSValue.decEqProps xs ys with
      | isTrue h => isTrue (congrArg JSValue.obj h)
      | isFalse h => isFalse (fun h2 => h (JSValue.obj.inj h2))
    | .undefined | .null | .bool _ | .num _ | .str _ | .arr _ => isFalse (fun h => nomatch h)
/-- Equality of lists of values is decidable. -/
def JSValue.decEqList : (a b : List JSValue) → Decidable (a = b)
  | [], [] => isTrue rfl
  | [], _ :: _ => isFalse (fun h => nomatch h)
  | _ :: _, [] => isFalse (fun h => nomatch h)
  | x :: xs, y :: ys =>
    match JSValue.decEq x y, JSValue.decEqList xs ys with
    | isTrue h1, isTrue h2 => isTrue (by rw [h1, h2])
    | isFalse h1, _ => isFalse (fun h => h1 (List.cons.inj h).1)
    | _, isFalse h2 => isFalse (fun h => h2 (List.cons.inj h).2)
/-- Equality of property lists is decidable. -/
def JSValue.decEqProps : (a b : List (String × JSValue)) → Decidable (a = b)
  | [], [] => isTrue rfl
  | [], _ :: _ => isFalse (fun h => nomatch h)
  | _ :: _, [] => isFalse (fun h => nomatch h)
  | (k, x) :: xs, (l, y) :: ys =>
    if hk : k = l then
      match JSValue.decEq x y, JSValue.decEqProps xs ys with
      | isTrue h1, isTrue h2 => isTrue (by rw [hk, h1, h2])
      | isFalse h1, _ => isFalse (fun h => h1 (Prod.mk.inj (List.cons.inj h).1).2)
      | _, isFalse h2 => isFalse (fun h => h2 (List.cons.inj h).2)
    else isFalse (fun h => hk (Prod.mk.inj (List.cons.inj h).1).1)
end

instance : DecidableEq JSValue := JSValue.decEq

namespace JSValue

/-- Holds for `undefined` and `null`. -/
def isNullish : JSValue → Bool
  | undefined => true
  | null => true
  | _ => false

/-- The test `Array.isArray(v)`. -/
def isArray : JSValue → Bool
  | arr _ => true
  | _ => false

/-- The operation `ToBoolean`. -/
def truthy : JSValue → Bool
  | undefined => false
  | null => false
  | bool b => b
  | num n => n.truthy
  | str s => !s.toList.isEmpty
  | arr _ => true
  | obj _ => true

/-- The expression `a || b`. -/
def or (a b : JSValue) : JSValue := if a.truthy then a else b

mutual
/-- The operation `ToString`. A plain object goes through `ToPrimitive`: when
it has an own `toString` member (which, in a value of this type, is never a
function) the conversion throws a TypeError, whatever its `valueOf`;
otherwise the inherited `Object.prototype.toString` gives `[object Object]`.
An array is joined with commas as `Array.prototype.toString` does. -/
def toChars : JSValue → Except JSError (List Char)
  | undefined => Except.ok "undefined".toList
  | null => Except.ok "null".toList
  | bool true => Except.ok "true".toList
  | bool false => Except.ok "false".toList
  | num n => Except.ok n.toChars
  | str s => Except.ok s.toList
  | arr items => joinChars items
  | obj props =>
    if props.any (fun p => p.1 == "toString") then Except.error cannotConvert
    else Except.ok "[object Object]".toList
/-- The body of `Array.prototype.join(",")`: `undefined` and `null` elements
give the empty text, every other element goes through `ToString`. -/
def joinChars : List JSValue → Except JSError (List Char)
  | [] => Except.ok []
  | x :: xs =>
    match (if x.isNullish then Except.ok [] else toChars x), joinChars xs with
    | Except.ok t, Except.ok r => Except.ok (t ++ (if xs.isEmpty then [] else ',' :: r))
    | Except.error e, _ => Except.error e
    | _, Except.error e => Except.error e
end

mutual
/-- Whether `ToString` (and `ToNumber`) accept the value: every value but an
object with an own `toString` member and an array that holds, at any depth,
such an object. -/
def convertible : JSValue → Bool
  | arr items => allConvertible items
  | obj props => !props.any (fun p => p.1 == "toString")
  | _ => true
/-- Whether `ToString` accepts every element of the list. -/
def allConvertible : List JSValue → Bool
  | [] => true
  | x :: xs => convertible x && allConvertible xs
end

/-- The operation `ToString`, as a string. -/
def toJSString (v : JSValue) : Except JSError String :=
  match v.toChars with
  | Except.ok t => Except.ok (String.mk t)
  | Except.error e => Except.error e

/-- The operation `ToNumber`; an array or object is first turned into its
text by `ToPrimitive`, which throws where `ToString` does. -/
def toNumber : JSValue → Except JSError JSNum
  | undefined => Except.ok JSNum.nan
  | null => Except.ok JSNum.zero
  | bool true => Except.ok JSNum.one
  | bool false => Except.ok JSNum.zero
  | num n => Except.ok n
  | v =>
    match v.toChars with
    | Except.ok t => Except.ok (stringToNumber t)
    | Except.error e => Except.error e

end JSValue

/-- The global function `parseFloat`: the argument goes through `ToString`. -/
def parseFloat (v : JSValue) : Except JSError JSNum :=
  match v.toChars with
  | Except.ok t => Except.ok (parseFloatChars t)
  | Except.error e => Except.error e

/-- The global function `parseInt` called with one argument, which goes
through `ToString`. -/
def parseInt (v : JSValue) : Except JSError JSNum :=
  match v.toChars with
  | Except.ok t => Except.ok (parseIntChars t)
  | Except.error e => Except.error e

/-- A Date object, given by its time value in milliseconds since the epoch;
`none` is the invalid date. -/
structure JSDate where
  timeValue : Option Int
  deriving DecidableEq, Repr

/-- The operation `TimeClip` followed by the construction of the Date:
`new Date(x)` for a Number `x`. -/
def newDate : JSNum → JSDate
  | JSNum.fin neg m e =>
    if 8640000000000000 * 2 ^ (-e).toNat < m * 2 ^ e.toNat then ⟨none⟩
    else
      let a : Int := (m * 2 ^ e.toNat / 2 ^ (-e).toNat : Nat)
      ⟨some (if neg then -a else a)⟩
  | _ => ⟨none⟩

/-! ## Strings as UTF-16, property keys and property order -/

/-- The UTF-16 code units of a character. -/
def utf16Units (c : Char) : List Nat :=
  if c.toNat < 0x10000 then [c.toNat]
  else [0xD800 + (c.toNat - 0x10000) / 0x400, 0xDC00 + (c.toNat - 0x10000) % 0x400]

/-- The UTF-16 code units of a string: what an ECMAScript string is made of. -/
def codeUnits (s : String) : List Nat := s.toList.flatMap utf16Units

/-- Strict lexicographic order on code-unit sequences: the `<` of strings. -/
def unitsLt : List Nat → List Nat → Bool
  | _, [] => false
  | [], _ :: _ => true
  | a :: as, b :: bs => decide (a < b) || (a == b && unitsLt as bs)

/-- The order in which `Array.prototype.sort()` without a comparator leaves two
string elements: `a` may stand before `b` when `b < a` does not hold. -/
def keyLe (a b : String) : Prop := unitsLt (codeUnits b) (codeUnits a) = false

instance : DecidableRel keyLe := fun a b =>
  inferInstanceAs (Decidable (unitsLt (codeUnits b) (codeUnits a) = false))

/-- The call `keys.sort()` on an array of strings. -/
def sortKeys (keys : List String) : List String := keys.insertionSort keyLe

/-- The array index a property key denotes, if it is one: a canonical decimal
numeral below `2^32 - 1`. -/
def arrayIndex? (k : String) : Option Nat :=
  let cs := k.toList
  if cs.isEmpty || !cs.all (isRadixDigit 10) then none
  else if decide (1 < cs.length) && cs.head? == some '0' then none
  else if radixValue 10 cs < 4294967295 then some (radixValue 10 cs) else none

/-- The value of an own property, `undefined` when there is none. -/
def getOwn (ps : Props) (k : String) : JSValue :=
  match ps.lookup k with
  | some v => v
  | none => JSValue.undefined

/-- Places a new array-index key among the own properties: after the smaller
indices, before the larger ones and before every other key. -/
def insertIndexed (i : Nat) (k : String) (v : JSValue) : Props → Props
  | [] => [(k, v)]
  | p :: rest =>
    match arrayIndex? p.1 with
    | some j => if j < i then p :: insertIndexed i k v rest else (k, v) :: p :: rest
    | none => (k, v) :: p :: rest

/-- The operation `CreateDataProperty` on an ordinary object: an existing
property keeps its place and takes the new value; a new array index goes in
ascending numeric position before all other keys; any other new key goes last. -/
def setOwn (ps : Props) (k : String) (v : JSValue) : Props :=
  if ps.any (fun p => p.1 == k) then ps.map (fun p => if p.1 == k then (k, v) else p)
  else
    match arrayIndex? k with
    | some i => insertIndexed i k v ps
    | none => ps ++ [(k, v)]

/-- The assignment `obj[key] = value` on an object whose prototype chain ends
in `Object.prototype`: the key `__proto__` reaches the inherited setter and
creates no own property; every other key creates or updates an own property. -/
def assignProp (ps : Props) (k : String) (v : JSValue) : Props :=
  if k = "__proto__" then ps else setOwn ps k v

/-- The call `Object.fromEntries(entries)`. -/
def fromEntries (entries : List (String × JSValue)) : Props :=
  entries.foldl (fun obj e => setOwn obj e.1 e.2) []

/-- The characters of a string, one per UTF-16 code unit (a character outside
the basic plane stands at both of its units). -/
def unitChars (cs : List Char) : List Char :=
  cs.flatMap fun c => List.replicate (utf16Units c).length c

/-- The member access `v[k]` on a value that is neither `undefined` nor
`null`. Keys that name a member of a built-in prototype other than `length`
are outside the model (the program reads none). -/
def getMember (v : JSValue) (k : String) : JSValue :=
  match v with
  | JSValue.obj ps => getOwn ps k
  | JSValue.arr items =>
    if k = "length" then JSValue.num (JSNum.ofNat items.length)
    else
      match arrayIndex? k with
      | some i => items.getD i JSValue.undefined
      | none => JSValue.undefined
  | JSValue.str s =>
    if k = "length" then JSValue.num (JSNum.ofNat (codeUnits s).length)
    else
      match arrayIndex? k with
      | some i =>
        match (unitChars s.toList).get? i with
        | some c => JSValue.str (String.mk [c])
        | none => JSValue.undefined
      | none => JSValue.undefined
  | _ => JSValue.undefined

/-- The member access `v.k`, which throws a TypeError on `undefined` and
`null` (with the message V8 gives). -/
def getProp (v : JSValue) (k : String) : Except JSError JSValue :=
  match v with
  | JSValue.undefined =>
    Except.error ⟨"Cannot read properties of undefined (reading '" ++ k ++ "')"⟩
  | JSValue.null => Except.error ⟨"Cannot read properties of null (reading '" ++ k ++ "')"⟩
  | _ => Except.ok (getMember v k)

/-- The optional member access `v?.k`. -/
def optGet (v : JSValue) (k : String) : JSValue :=
  if v.isNullish then JSValue.undefined else getMember v k

/-! ## `URLSearchParams` and `JSON.stringify` -/

/-- The UTF-8 bytes of a character. -/
def utf8Bytes (c : Char) : List Nat :=
  let n := c.toNat
  if n < 0x80 then [n]
  else if n < 0x800 then [0xC0 + n / 64, 0x80 + n % 64]
  else if n < 0x10000 then [0xE0 + n / 4096, 0x80 + n / 64 % 64, 0x80 + n % 64]
  else [0xF0 + n / 262144, 0x80 + n / 4096 % 64, 0x80 + n / 64 % 64, 0x80 + n % 64]

/-- An upper-case hexadecimal digit. -/
def hexUpper (d : Nat) : Char := "0123456789ABCDEF".toList.getD d '0'

/-- A lower-case hexadecimal digit. -/
def hexLower (d : Nat) : Char := "0123456789abcdef".toList.getD d '0'

/-- One byte under the `application/x-www-form-urlencoded` serialiser: a space
becomes `+`; ASCII letters, digits and `*-._` stay; the rest is `%XX`. -/
def formEncodeByte (b : Nat) : List Char :=
  if b = 0x20 then ['+']
  else if b = 0x2A ∨ b = 0x2D ∨ b = 0x2E ∨ b = 0x5F ∨ (0x30 ≤ b ∧ b ≤ 0x39) ∨
      (0x41 ≤ b ∧ b ≤ 0x5A) ∨ (0x61 ≤ b ∧ b ≤ 0x7A) then [Char.ofNat b]
  else ['%', hexUpper (b / 16), hexUpper (b % 16)]

/-- A name or a value under the `application/x-www-form-urlencoded`
serialiser. -/
def formEncode (cs : List Char) : List Char :=
  cs.flatMap fun c => (utf8Bytes c).flatMap formEncodeByte

/-- The tuples of the serialiser, joined by `&`. -/
def joinPairs : List (List Char) → List Char
  | [] => []
  | p :: ps => p ++ (if ps.isEmpty then [] else '&' :: joinPairs ps)

/-- The tuples of a list of name-value pairs, each value taken through
`ToString`, which may throw. -/
def formTuples : List (String × JSValue) → Except JSError (List (List Char))
  | [] => Except.ok []
  | p :: ps =>
    match p.2.toChars, formTuples ps with
    | Except.ok t, Except.ok r => Except.ok ((formEncode p.1.toList ++ '=' :: formEncode t) :: r)
    | Except.error e, _ => Except.error e
    | _, Except.error e => Except.error e

/-- The `application/x-www-form-urlencoded` serialiser on a list of name-value
tuples, each value taken through `ToString`: `name=value` joined by `&`, in
the order of the list. -/
def formSerialize (pairs : List (String × JSValue)) : Except JSError String :=
  match formTuples pairs with
  | Except.ok ts => Except.ok (String.mk (joinPairs ts))
  | Except.error e => Except.error e

/-- The expression `new URLSearchParams(obj).toString()` for a plain object
whose prototype chain holds no iterator: one tuple per own property, in
own-property order. -/
def urlSearchParamsToString (obj : Props) : Except JSError String := formSerialize obj

/-- One character inside a JSON string literal (`QuoteJSONString`). -/
def jsonQuoteChar (c : Char) : List Char :=
  let n := c.toNat
  if n = 0x08 then [Char.ofNat 92, 'b']
  else if n = 0x09 then [Char.ofNat 92, 't']
  else if n = 0x0A then [Char.ofNat 92, 'n']
  else if n = 0x0C then [Char.ofNat 92, 'f']
  else if n = 0x0D then [Char.ofNat 92, 'r']
  else if n = 0x22 then [Char.ofNat 92, Char.ofNat 34]
  else if n = 0x5C then [Char.ofNat 92, Char.ofNat 92]
  else if n < 0x20 then [Char.ofNat 92, 'u', '0', '0', hexLower (n / 16), hexLower (n % 16)]
  else [c]

/-- The operation `QuoteJSONString`. -/
def jsonQuote (cs : List Char) : List Char :=
  Char.ofNat 34 :: (cs.flatMap jsonQuoteChar ++ [Char.ofNat 34])

/-- Joins texts with commas. -/
def joinCommas : List (List Char) → List Char
  | [] => []
  | p :: ps => p ++ (if ps.isEmpty then [] else ',' :: joinCommas ps)

mutual
/-- The operation `SerializeJSONProperty`: `none` stands for `undefined`. -/
def jsonChars? : JSValue → Option (List Char)
  | JSValue.undefined => none
  | JSValue.null => some "null".toList
  | JSValue.bool true => some "true".toList
  | JSValue.bool false => some "false".toList
  | JSValue.num (JSNum.fin neg m e) => some (JSNum.fin neg m e).toChars
  | JSValue.num _ => some "null".toList
  | JSValue.str s => some (jsonQuote s.toList)
  | JSValue.arr items => some ('[' :: (joinCommas (jsonItems items) ++ [']']))
  | JSValue.obj ps => some (Char.ofNat 123 :: (joinCommas (jsonMembers ps) ++ [Char.ofNat 125]))
/-- The elements of `SerializeJSONArray`: `undefined` is written `null`. -/
def jsonItems : List JSValue → List (List Char)
  | [] => []
  | x :: xs =>
    (match jsonChars? x with
      | some t => t
      | none => "null".toList) :: jsonItems xs
/-- The members of `SerializeJSONObject`: a property whose value is
`undefined` is left out. -/
def jsonMembers : List (String × JSValue) → List (List Char)
  | [] => []
  | (k, x) :: xs =>
    match jsonChars? x with
    | some t => (jsonQuote k.toList ++ ':' :: t) :: jsonMembers xs
    | none => jsonMembers xs
end

/-- The text that a template literal shows for `JSON.stringify(v)`. -/
def jsonStringifyText (v : JSValue) : String :=
  match jsonChars? v with
  | some t => String.mk t
  | none => "undefined"

/-! ## HMAC-SHA256 -/

/-- The round constants of SHA-256. -/
def sha256K : List Nat :=
  [0x428a2f98, 0x71374491, 0xb5c0fbcf, 0xe9b5dba5, 0x3956c25b, 0x59f111f1, 0x923f82a4, 0xab1c5ed5,
   0xd807aa98, 0x12835b01, 0x243185be, 0x550c7dc3, 0x72be5d74, 0x80deb1fe, 0x9bdc06a7, 0xc19bf174,
   0xe49b69c1, 0xefbe4786, 0x0fc19dc6, 0x240ca1cc, 0x2de92c6f, 0x4a7484aa, 0x5cb0a9dc, 0x76f988da,
   0x983e5152, 0xa831c66d, 0xb00327c8, 0xbf597fc7, 0xc6e00bf3, 0xd5a79147, 0x06ca6351, 0x14292967,
   0x27b70a85, 0x2e1b2138, 0x4d2c6dfc, 0x53380d13, 0x650a7354, 0x766a0abb, 0x81c2c92e, 0x92722c85,
   0xa2bfe8a1, 0xa81a664b, 0xc24b8b70, 0xc76c51a3, 0xd192e819, 0xd6990624, 0xf40e3585, 0x106aa070,
   0x19a4c116, 0x1e376c08, 0x2748774c, 0x34b0bcb5, 0x391c0cb3, 0x4ed8aa4a, 0x5b9cca4f, 0x682e6ff3,
   0x748f82ee, 0x78a5636f, 0x84c87814, 0x8cc70208, 0x90befffa, 0xa4506ceb, 0xbef9a3f7, 0xc67178f2]

/-- The initial hash value of SHA-256. -/
def sha256Init : List Nat :=
  [0x6a09e667, 0xbb67ae85, 0x3c6ef372, 0xa54ff53a, 0x510e527f, 0x9b05688c, 0x1f83d9ab, 0x5be0cd19]

/-- Rotation of a 32-bit word to the right. -/
def rotr32 (x n : Nat) : Nat := ((x >>> n) ||| (x <<< (32 - n))) % 4294967296

/-- Addition of 32-bit words. -/
def add32 (a b : Nat) : Nat := (a + b) % 4294967296

/-- The words of a byte sequence, four bytes each, big-endian (the recursion
budget is the first argument). -/
def wordsOfBytes : Nat → List Nat → List Nat
  | 0, _ => []
  | fuel + 1, b0 :: b1 :: b2 :: b3 :: rest =>
    (b0 * 16777216 + b1 * 65536 + b2 * 256 + b3) :: wordsOfBytes fuel rest
  | _ + 1, _ => []

/-- The message schedule of one block: its sixteen words extended to
sixty-four. -/
def sha256Schedule (block : List Nat) : List Nat :=
  (List.range 48).foldl
    (fun w i =>
      let w15 := w.getD (i + 1) 0
      let w2 := w.getD (i + 14) 0
      let s0 := rotr32 w15 7 ^^^ rotr32 w15 18 ^^^ (w15 >>> 3)
      let s1 := rotr32 w2 17 ^^^ rotr32 w2 19 ^^^ (w2 >>> 10)
      w ++ [add32 (add32 (add32 (w.getD i 0) s0) (w.getD (i + 9) 0)) s1])
    block

/-- One round of the SHA-256 compression function on the working variables
`[a, b, c, d, e, f, g, h]`, with the round constant plus schedule word `kw`. -/
def sha256Round (v : List Nat) (kw : Nat) : List Nat :=
  match v with
  | [a, b, c, d, e, f, g, h] =>
    let s1 := rotr32 e 6 ^^^ rotr32 e 11 ^^^ rotr32 e 25
    let ch := (e &&& f) ^^^ ((e ^^^ 4294967295) &&& g)
    let t1 := add32 (add32 (add32 h s1) ch) kw
    let s0 := rotr32 a 2 ^^^ rotr32 a 13 ^^^ rotr32 a 22
    let maj := (a &&& b) ^^^ (a &&& c) ^^^ (b &&& c)
    let t2 := add32 s0 maj
    [add32 t1 t2, a, b, c, add32 d t1, e, f, g]
  | _ => v

/-- The SHA-256 compression of one block of sixteen words into the hash
value. -/
def sha256Compress (hash block : List Nat) : List Nat :=
  let kw := List.zipWith add32 sha256K (sha256Schedule block)
  List.zipWith add32 hash (kw.foldl sha256Round hash)

/-- The message followed by the SHA-256 padding. -/
def sha256Pad (msg : List Nat) : List Nat :=
  let len := msg.length
  let zeros := (119 - len % 64) % 64
  let bits := 8 * len
  msg ++ 0x80 :: (List.replicate zeros 0 ++
    (List.range 8).map fun i => bits / 256 ^ (7 - i) % 256)

/-- The blocks of a padded message, sixteen words each (the recursion budget
is the first argument). -/
def blocksOfWords : Nat → List Nat → List (List Nat)
  | 0, _ => []
  | fuel + 1, ws => if ws.isEmpty then [] else ws.take 16 :: blocksOfWords fuel (ws.drop 16)

/-- The SHA-256 digest of a byte sequence, as thirty-two bytes. -/
def sha256 (msg : List Nat) : List Nat :=
  let padded := sha256Pad msg
  let ws := wordsOfBytes padded.length padded
  let h := (blocksOfWords ws.length ws).foldl sha256Compress sha256Init
  h.flatMap fun w => [w / 16777216, w / 65536 % 256, w / 256 % 256, w % 256]

/-- The HMAC of RFC 2104 with SHA-256, on byte sequences. -/
def hmacSha256 (key msg : List Nat) : List Nat :=
  let k0 := if 64 < key.length then sha256 key else key
  let k := k0 ++ List.replicate (64 - k0.length) 0
  sha256 (k.map (fun b => b ^^^ 0x5c) ++ sha256 (k.map (fun b => b ^^^ 0x36) ++ msg))

/-- The expression `crypto.createHmac('sha256', key).update(text).digest('hex')`:
both strings enter as UTF-8; the digest is written in lower-case hexadecimal. -/
def hmacSha256Hex (key text : String) : String :=
  String.mk ((hmacSha256 (key.toList.flatMap utf8Bytes) (text.toList.flatMap utf8Bytes)).flatMap
    fun b => [hexLower (b / 16), hexLower (b % 16)])

/-! ## The program -/

/-- The local `orderedParams` of `generateSignatureV5`: the keys of `params`,
sorted, are assigned one by one to a fresh object. (A `__proto__` key whose
value is an array would make the rebuilt object iterable, so that
`URLSearchParams` reads it as a sequence of pairs; that case is not
modelled.) -/
def orderedParams (params : Props) : Props :=
  (sortKeys (params.map Prod.fst)).foldl
    (fun obj key => assignProp obj key (getOwn params key)) []

/-- The local `queryString` of `generateSignatureV5`; building the
`URLSearchParams` throws when a value cannot be converted to a string. -/
def queryString (params : Props) : Except JSError String :=
  urlSearchParamsToString (orderedParams params)

/-- The local `signString` of `generateSignatureV5`. -/
def signString (BYBIT_API_KEY timestamp recvWindow : String) (params : Props) :
    Except JSError String :=
  match queryString params with
  | Except.ok q => Except.ok (timestamp ++ BYBIT_API_KEY ++ recvWindow ++ q)
  | Except.error e => Except.error e

/-- The function `generateSignatureV5`. The API key read from the environment
is the parameter `BYBIT_API_KEY`. -/
def generateSignatureV5 (BYBIT_API_KEY : String)
    (apiSecret timestamp recvWindow : String) (params : Props) : Except JSError String :=
  match signString BYBIT_API_KEY timestamp recvWindow params with
  | Except.ok text => Except.ok (hmacSha256Hex apiSecret text)
  | Except.error e => Except.error e

/-- The call `text.split(',')`. -/
def splitCommas : List Char → List (List Char)
  | [] => [[]]
  | c :: cs =>
    match splitCommas cs with
    | [] => [[]]
    | p :: ps => if c == ',' then [] :: p :: ps else (c :: p) :: ps

/-- The initialiser of `ALLOWED_BALANCE_USER_IDS` and of
`ALLOWED_POSITION_USER_IDS`: `env?.split(',').map(id => id.trim()) || []`,
where `env` is the environment variable, `none` when it is not set. -/
def allowedUserIds (env : Option String) : List String :=
  match env with
  | none => []
  | some text => (splitCommas text.toList).map fun part => String.mk (trimWhiteSpace part)

/-- The function `checkAccessBalance`; `id` is `ctx.from.id`. The result is
the Boolean returned, or the error that `String(id)` throws. -/
def checkAccessBalance (ALLOWED_BALANCE_USER_IDS : List String) (id : JSValue) :
    Except JSError Bool :=
  if ALLOWED_BALANCE_USER_IDS.length = 0 then Except.ok false
  else
    match id.toJSString with
    | Except.ok text => Except.ok (ALLOWED_BALANCE_USER_IDS.contains text)
    | Except.error e => Except.error e

/-- The function `checkAccessPosition`; `id` is `ctx.from.id`. The result is
the Boolean returned, or the error that `String(id)` throws. -/
def checkAccessPosition (ALLOWED_POSITION_USER_IDS : List String) (id : JSValue) :
    Except JSError Bool :=
  if ALLOWED_POSITION_USER_IDS.length = 0 then Except.ok false
  else
    match id.toJSString with
    | Except.ok text => Except.ok (ALLOWED_POSITION_USER_IDS.contains text)
    | Except.error e => Except.error e

/-- The local `cleanParams` of `callBybitAPI`. -/
def cleanParams (params : Props) : Props :=
  fromEntries (params.filter fun p => !p.2.isNullish)

/-- The request that `callBybitAPI` hands to the HTTP client. -/
structure AxiosConfig where
  method : String
  url : String
  params : Props
  headers : List (String × String)
  timeout : Nat
  deriving DecidableEq, Repr

/-- The request part of `callBybitAPI`: the object passed to `axios`, or the
error thrown while the signature header is computed. `timestamp` is
`Date.now().toString()`. -/
def callBybitAPIRequest
    (BYBIT_API_KEY BYBIT_API_SECRET timestamp endpoint : String) (params : Props) :
    Except JSError AxiosConfig :=
  match generateSignatureV5 BYBIT_API_KEY BYBIT_API_SECRET timestamp "5000"
      (cleanParams params) with
  | Except.error e => Except.error e
  | Except.ok signature =>
    Except.ok
      { method := "get"
        url := "https://api.bybit.com/v5/" ++ endpoint
        params := cleanParams params
        headers :=
          [("X-BAPI-API-KEY", BYBIT_API_KEY),
           ("X-BAPI-TIMESTAMP", timestamp),
           ("X-BAPI-RECV-WINDOW", "5000"),
           ("X-BAPI-SIGN", signature),
           ("Content-Type", "application/json")]
        timeout := 10000 }

/-- A `catch` block that throws a new error whose message is a fixed text
followed by the message of the caught one. -/
def rethrow {α : Type} (pre : String) : Except JSError α → Except JSError α
  | Except.ok v => Except.ok v
  | Except.error e => Except.error ⟨pre ++ e.message⟩

/-- The comparison `v === 0`: true for the Numbers `+0` and `-0` only. -/
def strictEqZero : JSValue → Bool
  | JSValue.num n => n.strictEqZero
  | _ => false

/-- The response part of `callBybitAPI`. `response` is the outcome of the
awaited `axios` call: the body `response.data`, or the error thrown by the
call or while its request was built. -/
def callBybitAPI (response : Except JSError JSValue) : Except JSError JSValue :=
  rethrow "API request failed: " <|
    match response with
    | Except.error e => Except.error e
    | Except.ok data =>
      match getProp data "retCode" with
      | Except.error e => Except.error e
      | Except.ok retCode =>
        if !strictEqZero retCode then
          match ((getMember data "retMsg").or
              (JSValue.str ("API error: " ++ jsonStringifyText data))).toJSString with
          | Except.ok message => Except.error ⟨message⟩
          | Except.error e => Except.error e
        else Except.ok (getMember data "result")

/-- A position as `getOpenPositions` returns it. -/
structure Position where
  symbol : JSValue
  side : JSValue
  size : JSNum
  entry : JSNum
  pnl : JSNum
  leverage : JSNum
  liqPrice : JSNum
  deriving DecidableEq, Repr

/-- A closed trade as `getClosedPnl` returns it. -/
structure ClosedTrade where
  symbol : JSValue
  side : JSValue
  qty : JSNum
  entry : JSNum
  exit : JSNum
  pnl : JSNum
  createdTime : JSDate
  updatedTime : JSDate
  deriving DecidableEq, Repr

/-- The call `list.map(f)` with a callback that may throw. -/
def mapThrowing {α β : Type} (f : α → Except JSError β) : List α → Except JSError (List β)
  | [] => Except.ok []
  | x :: xs =>
    match f x with
    | Except.error e => Except.error e
    | Except.ok y =>
      match mapThrowing f xs with
      | Except.error e => Except.error e
      | Except.ok ys => Except.ok (y :: ys)

/-- The call `list.filter(p)` with a callback that may throw. -/
def filterThrowing {α : Type} (p : α → Except JSError Bool) : List α → Except JSError (List α)
  | [] => Except.ok []
  | x :: xs =>
    match p x with
    | Except.error e => Except.error e
    | Except.ok b =>
      match filterThrowing p xs with
      | Except.error e => Except.error e
      | Except.ok ys => Except.ok (if b then x :: ys else ys)

/-- The literal `0`. -/
def lit0 : JSValue := JSValue.num JSNum.zero

/-- The literal `1`. -/
def lit1 : JSValue := JSValue.num JSNum.one

/-- The literal `'N/A'`. -/
def litNA : JSValue := JSValue.str "N/A"

/-- The callback of `filter` in `getOpenPositions`:
`pos => parseFloat(pos?.size || 0) > 0`. -/
def positionFilter (pos : JSValue) : Except JSError Bool :=
  match parseFloat ((optGet pos "size").or lit0) with
  | Except.ok size => Except.ok size.gtZero
  | Except.error e => Except.error e

/-- The callback of `map` in `getOpenPositions`: the members of the object
literal are evaluated in order; `pos.symbol` throws when `pos` is `undefined`
or `null`, each `parseFloat` throws when its argument cannot be converted to
a string. -/
def positionRecord (pos : JSValue) : Except JSError Position := do
  let symbol ← getProp pos "symbol"
  let side ← getProp pos "side"
  let size ← parseFloat ((getMember pos "size").or lit0)
  let entry ← parseFloat ((getMember pos "avgPrice").or lit0)
  let pnl ← parseFloat ((getMember pos "unrealisedPnl").or lit0)
  let leverage ← parseFloat ((getMember pos "leverage").or lit1)
  let liqPrice ← parseFloat ((getMember pos "liqPrice").or lit0)
  pure
    { symbol := symbol.or litNA
      side := side.or litNA
      size := size
      entry := entry
      pnl := pnl
      leverage := leverage
      liqPrice := liqPrice }

/-- The function `getOpenPositions`. `api` is the outcome of the awaited
`callBybitAPI('position/list', ...)`: the result payload, or the error thrown. -/
def getOpenPositions (api : Except JSError JSValue) : Except JSError (List Position) :=
  rethrow "Failed to get positions: " <|
    match api with
    | Except.error e => Except.error e
    | Except.ok data =>
      match optGet data "list" with
      | JSValue.arr list =>
        match filterThrowing positionFilter list with
        | Except.error e => Except.error e
        | Except.ok kept => mapThrowing positionRecord kept
      | _ => Except.error ⟨"Invalid positions data format"⟩

/-- The callback of `map` in `getClosedPnl`: the members of the object literal
are evaluated in order; `trade.symbol` throws when `trade` is `undefined` or
`null`, each `parseFloat` and `parseInt` throws when its argument cannot be
converted to a string. -/
def tradeRecord (trade : JSValue) : Except JSError ClosedTrade := do
  let symbol ← getProp trade "symbol"
  let side ← getProp trade "side"
  let qty ← parseFloat ((getMember trade "size").or lit0)
  let entry ← parseFloat ((getMember trade "entryPrice").or lit0)
  let exit ← parseFloat ((getMember trade "exitPrice").or lit0)
  let pnl ← parseFloat ((getMember trade "closedPnl").or lit0)
  let createdTime ← parseInt ((getMember trade "createdTime").or lit0)
  let updatedTime ← parseInt ((getMember trade "updatedTime").or lit0)
  pure
    { symbol := symbol.or litNA
      side := side.or litNA
      qty := qty
      entry := entry
      exit := exit
      pnl := pnl
      createdTime := newDate createdTime
      updatedTime := newDate updatedTime }

/-- The request parameters of `getClosedPnl(params)`:
`{category: 'linear', settleCoin: 'USDT', ...params}`. -/
def closedPnlParams (params : Props) : Props :=
  params.foldl (fun obj p => setOwn obj p.1 p.2)
    [("category", JSValue.str "linear"), ("settleCoin", JSValue.str "USDT")]

/-- The function `getClosedPnl`. `api` is the outcome of the awaited
`callBybitAPI('position/closed-pnl', ...)`. -/
def getClosedPnl (api : Except JSError JSValue) : Except JSError (List ClosedTrade) :=
  rethrow "Failed to get closed pnl: " <|
    match api with
    | Except.error e => Except.error e
    | Except.ok data =>
      match optGet data "list" with
      | JSValue.arr list => mapThrowing tradeRecord list
      | _ => Except.error ⟨"Invalid closed pnl data format"⟩

/-- The function `getUSDTBalance`. `api` is the outcome of the awaited
`callBybitAPI('account/wallet-balance', ...)`. -/
def getUSDTBalance (api : Except JSError JSValue) : Except JSError JSNum :=
  rethrow "Failed to get balance: " <|
    match api with
    | Except.error e => Except.error e
    | Except.ok data =>
      let account := optGet (optGet data "list") "0"
      if !account.truthy then Except.error ⟨"No accounts found"⟩
      else (optGet account "totalEquity").toNumber

/-- The query string as the specification words it: the form-encoding of the
parameters listed in ascending code-unit order of their keys. -/
def sortedQueryString (params : Props) : Except JSError String :=
  formSerialize ((sortKeys (params.map Prod.fst)).map fun k => (k, getOwn params k))

/-! ## Theorems -/

open JSValue

/-- No code-unit sequence is below itself. -/
theorem unitsLt_irrefl (a : List Nat) : unitsLt a a = false := by
  induction a with
  | nil => rfl
  | cons x xs ih => simp [unitsLt, ih]

/-- The order on code-unit sequences is transitive. -/
theorem unitsLt_trans : ∀ {a b c : List Nat},
    unitsLt a b = true → unitsLt b c = true → unitsLt a c = true
  | _, [], _, h, _ => by cases ‹List Nat› <;> simp [unitsLt] at h
  | _, _ :: _, [], _, h => by simp [unitsLt] at h
  | [], _ :: _, _ :: _, _, _ => by simp [unitsLt]
  | x :: xs, y :: ys, z :: zs, h1, h2 => by
    simp only [unitsLt, Bool.or_eq_true, decide_eq_true_eq, Bool.and_eq_true, beq_iff_eq] at h1 h2 ⊢
    rcases h1 with h1 | ⟨h1, h1'⟩ <;> rcases h2 with h2 | ⟨h2, h2'⟩
    · left; omega
    · left; omega
    · left; omega
    · right; exact ⟨by omega, unitsLt_trans h1' h2'⟩

/-- Two code-unit sequences neither of which is below the other are equal. -/
theorem unitsLt_connected : ∀ {a b : List Nat},
    unitsLt a b = false → unitsLt b a = false → a = b
  | [], [], _, _ => rfl
  | [], _ :: _, h, _ => by simp [unitsLt] at h
  | _ :: _, [], _, h => by simp [unitsLt] at h
  | x :: xs, y :: ys, h1, h2 => by
    simp only [unitsLt, Bool.or_eq_false_iff, decide_eq_false_iff_not, Bool.and_eq_false_iff,
      beq_eq_false_iff_ne, ne_eq] at h1 h2
    have hxy : x = y := by omega
    subst hxy
    have e1 : unitsLt xs ys = false := by
      rcases h1.2 with h | h
      · exact absurd rfl h
      · exact h
    have e2 : unitsLt ys xs = false := by
      rcases h2.2 with h | h
      · exact absurd rfl h
      · exact h
    rw [unitsLt_connected e1 e2]

/-- The UTF-16 encoding of a character can be read back from the front of a
code-unit sequence. -/
theorem utf16Units_append_inj (c d : Char) (r1 r2 : List Nat)
    (h : utf16Units c ++ r1 = utf16Units d ++ r2) : c = d ∧ r1 = r2 := by
  have hc := c.valid
  have hd := d.valid
  have hcn : c.toNat = c.val.toNat := rfl
  have hdn : d.toNat = d.val.toNat := rfl
  simp only [UInt32.isValidChar, Nat.isValidChar] at hc hd
  unfold utf16Units at h
  have key : c.toNat = d.toNat ∧ r1 = r2 := by
    split at h <;> split at h
    · simp at h; exact h
    · simp at h; omega
    · simp at h; omega
    · simp at h
      refine ⟨?_, h.2.2⟩
      omega
  refine ⟨?_, key.2⟩
  apply Char.ext
  apply UInt32.ext  
  exact key.1

/-- Distinct texts have distinct code-unit sequences. -/
theorem codeUnits_injective : ∀ {s t : List Char},
    s.flatMap utf16Units = t.flatMap utf16Units → s = t
  | [], [], _ => rfl
  | [], d :: t, h => by
    simp [List.flatMap_cons, utf16Units] at h
    split at h <;> simp at h
  | c :: s, [], h => by
    simp [List.flatMap_cons, utf16Units] at h
    split at h <;> simp at h
  | c :: s, d :: t, h => by
    simp only [List.flatMap_cons] at h
    obtain ⟨h1, h2⟩ := utf16Units_append_inj c d _ _ h
    rw [h1, codeUnits_injective h2]

/-- Any two keys are comparable. -/
theorem keyLe_total (a b : String) : keyLe a b ∨ keyLe b a := by
  unfold keyLe
  cases h : unitsLt (codeUnits b) (codeUnits a) with
  | false => exact Or.inl rfl
  | true =>
    right
    cases h2 : unitsLt (codeUnits a) (codeUnits b) with
    | false => rfl
    | true =>
      have := unitsLt_trans h h2
      rw [unitsLt_irrefl] at this
      exact absurd this (by simp)

/-- Keys that may stand in either order are the same key. -/
theorem keyLe_antisymm {a b : String} (h1 : keyLe a b) (h2 : keyLe b a) : a = b := by
  unfold keyLe at h1 h2
  have h := unitsLt_connected h2 h1
  unfold codeUnits at h
  have := codeUnits_injective h
  cases a; cases b
  exact congrArg String.mk this

/-- The order of sorted keys is transitive. -/
theorem keyLe_trans {a b c : String} (h1 : keyLe a b) (h2 : keyLe b c) : keyLe a c := by
  unfold keyLe at *
  cases h : unitsLt (codeUnits c) (codeUnits a) with
  | false => rfl
  | true =>
    cases hab : unitsLt (codeUnits a) (codeUnits b) with
    | true =>
      have := unitsLt_trans h hab
      rw [h2] at this
      exact absurd this (by simp)
    | false =>
      have e := unitsLt_connected hab h1
      rw [e, h2] at h
      exact absurd h (by simp)

/-- Sorting does not depend on the order in which the keys are given. -/
theorem sortKeys_eq_of_perm {k1 k2 : List String} (h : k1.Perm k2) :
    sortKeys k1 = sortKeys k2 := by
  haveI : IsTotal String keyLe := ⟨keyLe_total⟩
  haveI : IsTrans String keyLe := ⟨fun _ _ _ => keyLe_trans⟩
  haveI : IsAntisymm String keyLe := ⟨fun _ _ => keyLe_antisymm⟩
  unfold sortKeys
  exact List.eq_of_perm_of_sorted
    (((List.perm_insertionSort keyLe k1).trans h).trans (List.perm_insertionSort keyLe k2).symm)
    (List.sorted_insertionSort keyLe k1) (List.sorted_insertionSort keyLe k2)

/-- With pairwise distinct keys, the value of a property does not depend on
the order of the properties. -/
theorem getOwn_eq_of_perm {p1 p2 : Props} (h : p1.Perm p2) (nd : (p1.map Prod.fst).Nodup)
    (k : String) : getOwn p1 k = getOwn p2 k := by
  unfold getOwn
  have : p1.lookup k = p2.lookup k := by
    induction h with
    | nil => rfl
    | cons x _ ih =>
      simp only [List.map_cons, List.nodup_cons] at nd
      obtain ⟨a, b⟩ := x
      cases hx : k == a <;> simp [List.lookup, hx, ih nd.2]
    | swap x y l =>
      simp only [List.map_cons, List.nodup_cons, List.mem_cons, not_or] at nd
      obtain ⟨a, b⟩ := x
      obtain ⟨c, d⟩ := y
      cases hx : k == a <;> cases hy : k == c <;> simp [List.lookup, hx, hy]
      simp at hx hy
      exact absurd (hy.symm.trans hx) nd.1.1
    | trans h1 _ ih1 ih2 =>
      exact (ih1 nd).trans (ih2 ((h1.map Prod.fst).nodup_iff.mp nd))
  rw [this]

/-- The object that `generateSignatureV5` rebuilds does not depend on the
property order of its argument. -/
theorem orderedParams_eq_of_perm {p1 p2 : Props} (h : p1.Perm p2)
    (nd : (p1.map Prod.fst).Nodup) : orderedParams p1 = orderedParams p2 := by
  unfold orderedParams
  rw [sortKeys_eq_of_perm (h.map Prod.fst)]
  have : (fun obj key => assignProp obj key (getOwn p1 key)) =
      (fun obj key => assignProp obj key (getOwn p2 key)) := by
    funext obj key
    rw [getOwn_eq_of_perm h nd key]
  rw [this]

/-- C3. `generateSignatureV5` gives the same signature for two parameter
objects that hold the same key/value pairs in different orders: for every API
key, secret, timestamp and receive window, and all property lists `p1`, `p2`
with pairwise distinct keys that are permutations of one another. -/
theorem generateSignatureV5_order_invariant (BYBIT_API_KEY apiSecret timestamp recvWindow : String)
    (p1 p2 : Props) (nd : (p1.map Prod.fst).Nodup) (h : p1.Perm p2) :
    generateSignatureV5 BYBIT_API_KEY apiSecret timestamp recvWindow p1 =
      generateSignatureV5 BYBIT_API_KEY apiSecret timestamp recvWindow p2 := by
  unfold generateSignatureV5 signString queryString
  rw [orderedParams_eq_of_perm h nd]

theorem generateSignatureV5_order_invariant_witness :
    ([("category", JSValue.str "linear"), ("settleCoin", JSValue.str "USDT"),
        ("limit", JSValue.num (JSNum.ofNat 50))].map Prod.fst).Nodup ∧
    List.Perm [("category", JSValue.str "linear"), ("settleCoin", JSValue.str "USDT"),
        ("limit", JSValue.num (JSNum.ofNat 50))]
      [("limit", JSValue.num (JSNum.ofNat 50)), ("settleCoin", JSValue.str "USDT"),
        ("category", JSValue.str "linear")] ∧
    generateSignatureV5 "KEY" "secret" "1700000000000" "5000"
      [("category", JSValue.str "linear"), ("settleCoin", JSValue.str "USDT"),
        ("limit", JSValue.num (JSNum.ofNat 50))] =
    generateSignatureV5 "KEY" "secret" "1700000000000" "5000"
      [("limit", JSValue.num (JSNum.ofNat 50)), ("settleCoin", JSValue.str "USDT"),
        ("category", JSValue.str "linear")] :=
  ⟨by decide, by decide,
    generateSignatureV5_order_invariant "KEY" "secret" "1700000000000" "5000" _ _
      (by decide) (by decide)⟩

mutual
/-- The operation `ToString` returns on a convertible value. -/
theorem toChars_of_convertible : ∀ v : JSValue, v.convertible = true →
    ∃ t, v.toChars = Except.ok t
  | .undefined, _ => ⟨_, rfl⟩
  | .null, _ => ⟨_, rfl⟩
  | .bool true, _ => ⟨_, rfl⟩
  | .bool false, _ => ⟨_, rfl⟩
  | .num _, _ => ⟨_, rfl⟩
  | .str _, _ => ⟨_, rfl⟩
  | .arr items, h => by
    rw [JSValue.convertible] at h
    rw [JSValue.toChars]
    exact joinChars_of_allConvertible items h
  | .obj props, h => by
    rw [JSValue.convertible] at h
    rw [JSValue.toChars]
    simp only [Bool.not_eq_true'] at h
    rw [h]
    exact ⟨_, rfl⟩
/-- The operation `join` returns on a list of convertible values. -/
theorem joinChars_of_allConvertible : ∀ l : List JSValue, JSValue.allConvertible l = true →
    ∃ t, JSValue.joinChars l = Except.ok t
  | [], _ => ⟨_, rfl⟩
  | x :: xs, h => by
    rw [JSValue.allConvertible, Bool.and_eq_true] at h
    obtain ⟨t, ht⟩ := toChars_of_convertible x h.1
    obtain ⟨r, hr⟩ := joinChars_of_allConvertible xs h.2
    rw [JSValue.joinChars, ht, hr]
    cases x.isNullish <;> exact ⟨_, rfl⟩
end

mutual
/-- The operation `ToString` throws the TypeError on a value that is not
convertible. -/
theorem toChars_of_not_convertible : ∀ v : JSValue, v.convertible = false →
    v.toChars = Except.error cannotConvert
  | .undefined, h => by simp [JSValue.convertible] at h
  | .null, h => by simp [JSValue.convertible] at h
  | .bool _, h => by simp [JSValue.convertible] at h
  | .num _, h => by simp [JSValue.convertible] at h
  | .str _, h => by simp [JSValue.convertible] at h
  | .arr items, h => by
    rw [JSValue.convertible] at h
    rw [JSValue.toChars]
    exact joinChars_of_not_allConvertible items h
  | .obj props, h => by
    rw [JSValue.convertible] at h
    rw [JSValue.toChars]
    simp only [Bool.not_eq_false'] at h
    rw [h]
    rfl
/-- The operation `join` throws the TypeError on a list that holds a value
that is not convertible. -/
theorem joinChars_of_not_allConvertible : ∀ l : List JSValue,
    JSValue.allConvertible l = false → JSValue.joinChars l = Except.error cannotConvert
  | [], h => by simp [JSValue.allConvertible] at h
  | x :: xs, h => by
    rw [JSValue.allConvertible, Bool.and_eq_false_iff] at h
    rw [JSValue.joinChars]
    cases hx : x.convertible with
    | false =>
      have hn : x.isNullish = false := by
        cases x <;> first | rfl | simp [JSValue.convertible] at hx
      rw [hn, toChars_of_not_convertible x hx]
      simp
    | true =>
      have hxs : JSValue.allConvertible xs = false := by
        rcases h with h | h
        · rw [hx] at h; cases h
        · exact h
      rw [joinChars_of_not_allConvertible xs hxs]
      obtain ⟨t, ht⟩ := toChars_of_convertible x hx
      rw [ht]
      cases x.isNullish <;> rfl
end

/-- The only error of `ToString` is the TypeError of the conversion. -/
theorem toChars_error (v : JSValue) (e : JSError) (h : v.toChars = Except.error e) :
    e = cannotConvert ∧ v.convertible = false := by
  cases hc : v.convertible with
  | true =>
    obtain ⟨t, ht⟩ := toChars_of_convertible v hc
    rw [ht] at h
    cases h
  | false =>
    rw [toChars_of_not_convertible v hc] at h
    cases h
    exact ⟨rfl, rfl⟩

/-- The call `parseFloat(v)` returns on a convertible value. -/
theorem parseFloat_of_convertible (v : JSValue) (h : v.convertible = true) :
    ∃ x, parseFloat v = Except.ok x := by
  obtain ⟨t, ht⟩ := toChars_of_convertible v h
  exact ⟨_, by rw [parseFloat, ht]⟩

/-- The call `parseFloat(v)` throws the TypeError on a value that is not
convertible. -/
theorem parseFloat_of_not_convertible (v : JSValue) (h : v.convertible = false) :
    parseFloat v = Except.error cannotConvert := by
  rw [parseFloat, toChars_of_not_convertible v h]

/-- The call `parseInt(v)` returns on a convertible value. -/
theorem parseInt_of_convertible (v : JSValue) (h : v.convertible = true) :
    ∃ x, parseInt v = Except.ok x := by
  obtain ⟨t, ht⟩ := toChars_of_convertible v h
  exact ⟨_, by rw [parseInt, ht]⟩

/-- The call `parseInt(v)` throws the TypeError on a value that is not
convertible. -/
theorem parseInt_of_not_convertible (v : JSValue) (h : v.convertible = false) :
    parseInt v = Except.error cannotConvert := by
  rw [parseInt, toChars_of_not_convertible v h]

/-- A falsy value is convertible, so `v || d` with a convertible default is
convertible exactly when `v` is. -/
theorem or_convertible (v d : JSValue) (hd : d.convertible = true) :
    (v.or d).convertible = v.convertible := by
  unfold JSValue.or
  cases ht : v.truthy
  · simp only [Bool.false_eq_true, if_false]
    rw [hd]
    cases v <;> first | rfl | simp [JSValue.truthy] at ht
  · simp

/-- The call `parseFloat(0)` gives 0. -/
theorem parseFloat_lit0 : parseFloat lit0 = Except.ok JSNum.zero := by decide

/-- The call `parseFloat(1)` gives 1. -/
theorem parseFloat_lit1 : parseFloat lit1 = Except.ok JSNum.one := by decide

/-- The call `parseInt(0)` gives 0. -/
theorem parseInt_lit0 : parseInt lit0 = Except.ok JSNum.zero := by decide

/-- Optional and plain member access read the same value. -/
theorem optGet_eq_getMember (v : JSValue) (k : String) : optGet v k = getMember v k := by
  cases v <;> rfl

/-- On a value that is neither `undefined` nor `null` the member access
returns. -/
theorem getProp_ok (v : JSValue) (k : String) (h : v.isNullish = false) :
    getProp v k = Except.ok (getMember v k) := by
  cases v <;> first | rfl | simp [JSValue.isNullish] at h

/-- C4. `checkAccessBalance` (resp. `checkAccessPosition`) returns true exactly
when `String(callerId)` is an element of the balance (resp. position)
allow-list, each predicate reading its own list only; for every caller id
that `String` accepts (every primitive, so every Telegram id) the predicate
returns the Boolean that says whether that string is in the list; with an
empty allow-list (the one an unset environment variable gives) both return
false for every caller id. The last conjunct is a sample: with the balance
list loaded from `"42, 123456789"` the numeric caller id 123456789 is
admitted and 7 is not. -/
theorem checkAccess_iff_allowed (balanceIds positionIds : List String) (id : JSValue) :
    (checkAccessBalance balanceIds id = Except.ok true ↔
      ∃ s, id.toJSString = Except.ok s ∧ s ∈ balanceIds) ∧
    (checkAccessPosition positionIds id = Except.ok true ↔
      ∃ s, id.toJSString = Except.ok s ∧ s ∈ positionIds) ∧
    (id.convertible = true → ∃ s, id.toJSString = Except.ok s ∧
      checkAccessBalance balanceIds id = Except.ok (decide (s ∈ balanceIds)) ∧
      checkAccessPosition positionIds id = Except.ok (decide (s ∈ positionIds))) ∧
    checkAccessBalance [] id = Except.ok false ∧ checkAccessPosition [] id = Except.ok false ∧
    checkAccessBalance (allowedUserIds none) id = Except.ok false ∧
    checkAccessPosition (allowedUserIds none) id = Except.ok false ∧
    (allowedUserIds (some "42, 123456789") = ["42", "123456789"] ∧
      checkAccessBalance (allowedUserIds (some "42, 123456789"))
        (JSValue.num (JSNum.ofNat 123456789)) = Except.ok true ∧
      checkAccessBalance (allowedUserIds (some "42, 123456789"))
        (JSValue.num (JSNum.ofNat 7)) = Except.ok false) := by
  have key : ∀ (l : List String),
      (∀ f : List String → JSValue → Except JSError Bool,
        (f = checkAccessBalance ∨ f = checkAccessPosition) →
        ((f l id = Except.ok true ↔ ∃ s, id.toJSString = Except.ok s ∧ s ∈ l) ∧
         (∀ s, id.toJSString = Except.ok s → f l id = Except.ok (decide (s ∈ l))))) := by
    intro l f hf
    have hdef : f l id = (if l.length = 0 then Except.ok false
        else match id.toJSString with
          | Except.ok text => Except.ok (l.contains text)
          | Except.error e => Except.error e) := by
      rcases hf with hf | hf <;> rw [hf] <;> rfl
    rw [hdef]
    cases l with
    | nil => simp
    | cons a as =>
      cases hs : id.toJSString with
      | error e => simp
      | ok s => simp
  refine ⟨(key balanceIds _ (Or.inl rfl)).1, (key positionIds _ (Or.inr rfl)).1, ?_,
    rfl, rfl, rfl, rfl, by decide⟩
  intro hc
  obtain ⟨t, ht⟩ := toChars_of_convertible id hc
  have hs : id.toJSString = Except.ok (String.mk t) := by rw [JSValue.toJSString, ht]
  exact ⟨_, hs, (key balanceIds _ (Or.inl rfl)).2 _ hs, (key positionIds _ (Or.inr rfl)).2 _ hs⟩

/-- A `filter` whose callback returns normally on every element returns the
elements on which it returned true, in order. -/
theorem filterThrowing_ok {α : Type} (p : α → Except JSError Bool) :
    ∀ l : List α, (∀ x ∈ l, ∃ b, p x = Except.ok b) →
      filterThrowing p l = Except.ok (l.filter fun x => decide (p x = Except.ok true))
  | [], _ => rfl
  | x :: xs, h => by
    obtain ⟨b, hb⟩ := h x (List.mem_cons_self x xs)
    have ih := filterThrowing_ok p xs (fun y hy => h y (List.mem_cons_of_mem x hy))
    rw [filterThrowing, hb, ih]
    cases b <;> simp [List.filter, hb]

/-- A `filter` whose callback throws on some element throws; when every error
of the callback is the same error, it throws that one. -/
theorem filterThrowing_error {α : Type} (p : α → Except JSError Bool) (err : JSError)
    (herr : ∀ x e, p x = Except.error e → e = err) :
    ∀ l : List α, (∃ x ∈ l, p x = Except.error err) → filterThrowing p l = Except.error err
  | [], h => by
    obtain ⟨x, hx, _⟩ := h
    cases hx
  | x :: xs, h => by
    rw [filterThrowing]
    cases hpx : p x with
    | error e => rw [herr x e hpx]
    | ok b =>
      have hex : ∃ y ∈ xs, p y = Except.error err := by
        obtain ⟨y, hy, hpy⟩ := h
        rcases List.mem_cons.mp hy with rfl | hy
        · rw [hpx] at hpy; cases hpy
        · exact ⟨y, hy, hpy⟩
      rw [filterThrowing_error p err herr xs hex]

/-- A `map` whose callback returns normally on every element returns the list
of the results, one for each element, in order. -/
theorem mapThrowing_ok {α β : Type} (f : α → Except JSError β) :
    ∀ l : List α, (∀ x ∈ l, ∃ y, f x = Except.ok y) →
      ∃ ys, mapThrowing f l = Except.ok ys ∧ List.Forall₂ (fun x y => f x = Except.ok y) l ys
  | [], _ => ⟨[], rfl, List.Forall₂.nil⟩
  | x :: xs, h => by
    obtain ⟨y, hy⟩ := h x (List.mem_cons_self x xs)
    obtain ⟨ys, hys, hall⟩ := mapThrowing_ok f xs (fun z hz => h z (List.mem_cons_of_mem x hz))
    exact ⟨y :: ys, by rw [mapThrowing, hy, hys], List.Forall₂.cons hy hall⟩

/-- The size test returns on an entry whose size is convertible. -/
theorem positionFilter_of_convertible (pos : JSValue)
    (h : (getMember pos "size").convertible = true) : ∃ b, positionFilter pos = Except.ok b := by
  have hc : ((optGet pos "size").or lit0).convertible = true := by
    rw [or_convertible _ _ (by decide), optGet_eq_getMember]
    exact h
  obtain ⟨x, hx⟩ := parseFloat_of_convertible _ hc
  exact ⟨_, by rw [positionFilter, hx]⟩

/-- The size test throws the TypeError on an entry whose size is not
convertible, and throws nothing else. -/
theorem positionFilter_error (pos : JSValue) :
    ((getMember pos "size").convertible = false →
      positionFilter pos = Except.error cannotConvert) ∧
    (∀ e, positionFilter pos = Except.error e → e = cannotConvert) := by
  constructor
  · intro h
    have hc : ((optGet pos "size").or lit0).convertible = false := by
      rw [or_convertible _ _ (by decide), optGet_eq_getMember]
      exact h
    rw [positionFilter, parseFloat_of_not_convertible _ hc]
  · intro e he
    unfold positionFilter parseFloat at he
    cases ht : ((optGet pos "size").or lit0).toChars with
    | ok t => rw [ht] at he; cases he
    | error e2 =>
      rw [ht] at he
      cases he
      exact (toChars_error _ _ ht).1

/-- An entry that passes the size test is neither `undefined` nor `null`, and
its size is truthy and parses to a Number above zero. -/
theorem positionFilter_true (pos : JSValue) (h : positionFilter pos = Except.ok true) :
    pos.isNullish = false ∧ (getMember pos "size").truthy = true ∧
    ∃ x, parseFloat (getMember pos "size") = Except.ok x ∧ x.gtZero = true := by
  have hfalsy : ∀ v : JSValue, v.truthy = false →
      ¬ positionFilter pos = Except.ok true ∨ optGet pos "size" ≠ v := by
    intro v hv
    by_cases hv2 : optGet pos "size" = v
    · left
      intro hp
      unfold positionFilter JSValue.or at hp
      rw [hv2, hv] at hp
      simp only [Bool.false_eq_true, if_false] at hp
      rw [parseFloat_lit0] at hp
      revert hp
      decide
    · exact Or.inr hv2
  have htruthy : (optGet pos "size").truthy = true := by
    cases ht : (optGet pos "size").truthy with
    | true => rfl
    | false =>
      rcases hfalsy _ ht with h2 | h2
      · exact absurd h h2
      · exact absurd rfl h2
  have hn : pos.isNullish = false := by
    cases pos <;> first | rfl | (revert htruthy; decide)
  rw [optGet_eq_getMember] at htruthy
  refine ⟨hn, htruthy, ?_⟩
  unfold positionFilter JSValue.or at h
  rw [optGet_eq_getMember, htruthy] at h
  simp only [if_true] at h
  cases hp : parseFloat (getMember pos "size") with
  | error e => rw [hp] at h; cases h
  | ok x =>
    rw [hp] at h
    exact ⟨x, rfl, by simpa using h⟩

/-- The call `parseFloat(v || d)` is `parseFloat(v)` for a truthy `v` and
`parseFloat(d)` otherwise. -/
theorem parseFloat_or (v d : JSValue) :
    parseFloat (v.or d) = (if v.truthy then parseFloat v else parseFloat d) := by
  unfold JSValue.or
  cases v.truthy <;> simp

/-- The call `parseInt(v || d)` is `parseInt(v)` for a truthy `v` and
`parseInt(d)` otherwise. -/
theorem parseInt_or (v d : JSValue) :
    parseInt (v.or d) = (if v.truthy then parseInt v else parseInt d) := by
  unfold JSValue.or
  cases v.truthy <;> simp

/-- The record that the callback of `map` in `getOpenPositions` returns, read
off its five conversions. -/
theorem positionRecord_inv (pos : JSValue) (r : Position)
    (h : positionRecord pos = Except.ok r) :
    pos.isNullish = false ∧
    r.symbol = (getMember pos "symbol").or litNA ∧
    r.side = (getMember pos "side").or litNA ∧
    parseFloat ((getMember pos "size").or lit0) = Except.ok r.size ∧
    parseFloat ((getMember pos "avgPrice").or lit0) = Except.ok r.entry ∧
    parseFloat ((getMember pos "unrealisedPnl").or lit0) = Except.ok r.pnl ∧
    parseFloat ((getMember pos "leverage").or lit1) = Except.ok r.leverage ∧
    parseFloat ((getMember pos "liqPrice").or lit0) = Except.ok r.liqPrice := by
  have hn : pos.isNullish = false := by
    cases pos <;> first | rfl | (exfalso; revert h; simp [positionRecord, getProp, bind, Except.bind])
  unfold positionRecord at h
  simp only [getProp_ok pos _ hn, bind, Except.bind, pure, Except.pure] at h
  cases h1 : parseFloat ((getMember pos "size").or lit0) <;> rw [h1] at h <;>
    simp only [reduceCtorEq] at h
  cases h2 : parseFloat ((getMember pos "avgPrice").or lit0) <;> rw [h2] at h <;>
    simp only [reduceCtorEq] at h
  cases h3 : parseFloat ((getMember pos "unrealisedPnl").or lit0) <;> rw [h3] at h <;>
    simp only [reduceCtorEq] at h
  cases h4 : parseFloat ((getMember pos "leverage").or lit1) <;> rw [h4] at h <;>
    simp only [reduceCtorEq] at h
  cases h5 : parseFloat ((getMember pos "liqPrice").or lit0) <;> rw [h5] at h <;>
    simp only [reduceCtorEq] at h
  cases h
  exact ⟨hn, rfl, rfl, rfl, rfl, rfl, rfl, rfl⟩

/-- The callback of `map` in `getOpenPositions` returns on an entry that is
neither `undefined` nor `null` and whose five numeric fields are
convertible. -/
theorem positionRecord_of_convertible (pos : JSValue) (hn : pos.isNullish = false)
    (h1 : (getMember pos "size").convertible = true)
    (h2 : (getMember pos "avgPrice").convertible = true)
    (h3 : (getMember pos "unrealisedPnl").convertible = true)
    (h4 : (getMember pos "leverage").convertible = true)
    (h5 : (getMember pos "liqPrice").convertible = true) :
    ∃ r, positionRecord pos = Except.ok r := by
  obtain ⟨a, ha⟩ := parseFloat_of_convertible ((getMember pos "size").or lit0)
    (by rw [or_convertible _ _ (by decide)]; exact h1)
  obtain ⟨b, hb⟩ := parseFloat_of_convertible ((getMember pos "avgPrice").or lit0)
    (by rw [or_convertible _ _ (by decide)]; exact h2)
  obtain ⟨c, hc⟩ := parseFloat_of_convertible ((getMember pos "unrealisedPnl").or lit0)
    (by rw [or_convertible _ _ (by decide)]; exact h3)
  obtain ⟨d, hd⟩ := parseFloat_of_convertible ((getMember pos "leverage").or lit1)
    (by rw [or_convertible _ _ (by decide)]; exact h4)
  obtain ⟨e, he⟩ := parseFloat_of_convertible ((getMember pos "liqPrice").or lit0)
    (by rw [or_convertible _ _ (by decide)]; exact h5)
  refine ⟨{ symbol := (getMember pos "symbol").or litNA, side := (getMember pos "side").or litNA,
             size := a, entry := b, pnl := c, leverage := d, liqPrice := e }, ?_⟩
  unfold positionRecord
  simp only [getProp_ok pos _ hn, bind, Except.bind, pure, Except.pure, ha, hb, hc, hd, he]

/-- C5, counterexample. In the list `[{size: "1"}, {size: {toString: 1}}]` the
first entry has the parsed size 1, above zero, and the second has no parsable
size; `getOpenPositions` returns no record at all: the size test throws on
the second entry and the call fails. -/
theorem getOpenPositions_inconvertible_size_fails :
    positionFilter (JSValue.obj [("size", JSValue.str "1")]) = Except.ok true ∧
    getOpenPositions (Except.ok (JSValue.obj [("list", JSValue.arr
      [JSValue.obj [("size", JSValue.str "1")],
       JSValue.obj [("size", JSValue.obj [("toString", JSValue.num JSNum.one)])]])])) =
      Except.error ⟨"Failed to get positions: Cannot convert object to primitive value"⟩ := by
  decide

/-- C5, amended. When the `list` of the result payload is an array in which
every entry's size is convertible to a string, and so are the `avgPrice`,
`unrealisedPnl`, `leverage` and `liqPrice` of every entry that passes the size
test `parseFloat(pos?.size || 0) > 0`, `getOpenPositions` returns one record
for exactly the entries that pass the test, in the order of their source
entries; the size of each record is the parsed upstream size and is above
zero. An entry without a size, with an unparsable size, or that is `null`
does not pass the test. For the sizes `[0, "0", 0.5, -1]` the result is the
record of the `0.5` entry alone. -/
theorem getOpenPositions_keeps_positive_sizes (data : JSValue) (list : List JSValue)
    (h : optGet data "list" = JSValue.arr list)
    (hs : ∀ pos ∈ list, (getMember pos "size").convertible = true)
    (hf : ∀ pos ∈ list, positionFilter pos = Except.ok true →
      (getMember pos "avgPrice").convertible = true ∧
      (getMember pos "unrealisedPnl").convertible = true ∧
      (getMember pos "leverage").convertible = true ∧
      (getMember pos "liqPrice").convertible = true) :
    (∃ records, getOpenPositions (Except.ok data) = Except.ok records ∧
      List.Forall₂ (fun pos r => positionRecord pos = Except.ok r)
        (list.filter fun pos => decide (positionFilter pos = Except.ok true)) records ∧
      (∀ r ∈ records, r.size.gtZero = true)) ∧
    (list.filter fun pos => decide (positionFilter pos = Except.ok true)).Sublist list ∧
    (∀ pos r, positionFilter pos = Except.ok true → positionRecord pos = Except.ok r →
      parseFloat (getMember pos "size") = Except.ok r.size ∧ r.size.gtZero = true) ∧
    [JSValue.obj [], JSValue.obj [("size", JSValue.str "abc")], JSValue.null].map
      positionFilter = [Except.ok false, Except.ok false, Except.ok false] ∧
    getOpenPositions (Except.ok (JSValue.obj [("list", JSValue.arr
        [JSValue.obj [("size", JSValue.num JSNum.zero)],
         JSValue.obj [("size", JSValue.str "0")],
         JSValue.obj [("size", JSValue.num (JSNum.ofDecimal false 5 (-1)))],
         JSValue.obj [("size", JSValue.num (JSNum.ofDecimal true 1 0))]])])) =
      Except.ok [{ symbol := JSValue.str "N/A", side := JSValue.str "N/A",
                   size := JSNum.ofDecimal false 5 (-1), entry := JSNum.zero,
                   pnl := JSNum.zero, leverage := JSNum.one, liqPrice := JSNum.zero }] := by
  have hsize : ∀ pos r, positionFilter pos = Except.ok true → positionRecord pos = Except.ok r →
      parseFloat (getMember pos "size") = Except.ok r.size ∧ r.size.gtZero = true := by
    intro pos r hp hr
    obtain ⟨_, ht, x, hx, hx0⟩ := positionFilter_true pos hp
    have hr4 := (positionRecord_inv pos r hr).2.2.2.1
    rw [parseFloat_or, ht] at hr4
    simp only [if_true] at hr4
    rw [hx] at hr4
    cases hr4
    exact ⟨hx, hx0⟩
  refine ⟨?_, List.filter_sublist list, hsize, by decide, by decide⟩
  have hfilter := filterThrowing_ok positionFilter list
    (fun pos hpos => positionFilter_of_convertible pos (hs pos hpos))
  have hkept : ∀ pos ∈ list.filter (fun pos => decide (positionFilter pos = Except.ok true)),
      ∃ r, positionRecord pos = Except.ok r := by
    intro pos hpos
    obtain ⟨hmem, hdec⟩ := List.mem_filter.mp hpos
    have hp : positionFilter pos = Except.ok true := of_decide_eq_true hdec
    obtain ⟨h2, h3, h4, h5⟩ := hf pos hmem hp
    exact positionRecord_of_convertible pos (positionFilter_true pos hp).1 (hs pos hmem)
      h2 h3 h4 h5
  obtain ⟨records, hrec, hall⟩ := mapThrowing_ok positionRecord _ hkept
  refine ⟨records, ?_, hall, ?_⟩
  · unfold getOpenPositions
    simp only [h, hfilter, hrec]
    rfl
  · intro r hr
    have hex : ∀ (l : List JSValue) (rs : List Position),
        List.Forall₂ (fun pos r => positionRecord pos = Except.ok r) l rs →
        ∀ r ∈ rs, ∃ pos ∈ l, positionRecord pos = Except.ok r := by
      intro l rs hfa
      induction hfa with
      | nil => intro r hr; cases hr
      | cons hxy _ ih =>
        intro r hr
        rcases List.mem_cons.mp hr with rfl | hr
        · exact ⟨_, List.mem_cons_self _ _, hxy⟩
        · obtain ⟨pos, hpos, hp⟩ := ih r hr
          exact ⟨pos, List.mem_cons_of_mem _ hpos, hp⟩
    obtain ⟨pos, hpos, hp⟩ := hex _ _ hall r hr
    exact (hsize pos r (of_decide_eq_true (List.mem_filter.mp hpos).2) hp).2

theorem getOpenPositions_keeps_positive_sizes_witness :
    optGet (JSValue.obj [("list", JSValue.arr
        [JSValue.obj [("symbol", JSValue.str "ETHUSDT"), ("size", JSValue.str "2")],
         JSValue.obj [("symbol", JSValue.str "BTCUSDT"), ("size", JSValue.str "0")]])]) "list" =
      JSValue.arr
        [JSValue.obj [("symbol", JSValue.str "ETHUSDT"), ("size", JSValue.str "2")],
         JSValue.obj [("symbol", JSValue.str "BTCUSDT"), ("size", JSValue.str "0")]] ∧
    ∃ records, getOpenPositions (Except.ok (JSValue.obj [("list", JSValue.arr
        [JSValue.obj [("symbol", JSValue.str "ETHUSDT"), ("size", JSValue.str "2")],
         JSValue.obj [("symbol", JSValue.str "BTCUSDT"), ("size", JSValue.str "0")]])])) =
        Except.ok records ∧
      List.Forall₂ (fun pos r => positionRecord pos = Except.ok r)
        ([JSValue.obj [("symbol", JSValue.str "ETHUSDT"), ("size", JSValue.str "2")],
          JSValue.obj [("symbol", JSValue.str "BTCUSDT"), ("size", JSValue.str "0")]].filter
            fun pos => decide (positionFilter pos = Except.ok true)) records ∧
      (∀ r ∈ records, r.size.gtZero = true) :=
  ⟨by decide, (getOpenPositions_keeps_positive_sizes _ _ (by decide) (by decide)
    (by decide)).1⟩

/-- C6. When `data?.list` is not an array (the field is missing, null or of
another type, or the payload itself is `null` or `undefined`),
`getOpenPositions` and `getClosedPnl` fail, with the messages
`Failed to get positions: Invalid positions data format` and
`Failed to get closed pnl: Invalid closed pnl data format`; neither returns an
empty list. The `null` and `undefined` payloads meet the premise. -/
theorem invalid_list_is_rejected (data : JSValue) (h : (optGet data "list").isArray = false) :
    getOpenPositions (Except.ok data) =
      Except.error ⟨"Failed to get positions: Invalid positions data format"⟩ ∧
    getClosedPnl (Except.ok data) =
      Except.error ⟨"Failed to get closed pnl: Invalid closed pnl data format"⟩ ∧
    getOpenPositions (Except.ok data) ≠ Except.ok [] ∧
    getClosedPnl (Except.ok data) ≠ Except.ok [] ∧
    (optGet JSValue.null "list").isArray = false ∧
    (optGet JSValue.undefined "list").isArray = false := by
  have h1 : getOpenPositions (Except.ok data) =
      Except.error ⟨"Failed to get positions: Invalid positions data format"⟩ := by
    unfold getOpenPositions
    cases hl : optGet data "list" with
    | arr l => rw [hl] at h; simp [isArray] at h
    | _ => simp only [hl]; rfl
  have h2 : getClosedPnl (Except.ok data) =
      Except.error ⟨"Failed to get closed pnl: Invalid closed pnl data format"⟩ := by
    unfold getClosedPnl
    cases hl : optGet data "list" with
    | arr l => rw [hl] at h; simp [isArray] at h
    | _ => simp only [hl]; rfl
  refine ⟨h1, h2, ?_, ?_, rfl, rfl⟩
  · rw [h1]; exact fun e => nomatch e
  · rw [h2]; exact fun e => nomatch e

theorem invalid_list_is_rejected_witness :
    (optGet (JSValue.obj [("list", JSValue.str "none")]) "list").isArray = false ∧
    getOpenPositions (Except.ok (JSValue.obj [("list", JSValue.str "none")])) =
      Except.error ⟨"Failed to get positions: Invalid positions data format"⟩ ∧
    getClosedPnl (Except.ok (JSValue.obj [("list", JSValue.str "none")])) =
      Except.error ⟨"Failed to get closed pnl: Invalid closed pnl data format"⟩ :=
  ⟨by decide,
    (invalid_list_is_rejected (JSValue.obj [("list", JSValue.str "none")]) (by decide)).1,
    (invalid_list_is_rejected (JSValue.obj [("list", JSValue.str "none")]) (by decide)).2.1⟩

/-- The operation `ToString` leaves a string as it is. -/
theorem toJSString_str (s : String) : (JSValue.str s).toJSString = Except.ok s := rfl

/-- C7, counterexample. In the envelope `{retCode: 1, retMsg: {toString: 1}}`
the `retMsg` is present and truthy, yet the error that `callBybitAPI`
propagates carries neither `retMsg` nor the JSON text of the envelope: the
construction of the error throws a TypeError, and that is what is
propagated. -/
theorem callBybitAPI_inconvertible_retMsg :
    (getMember (JSValue.obj [("retCode", JSValue.num JSNum.one),
      ("retMsg", JSValue.obj [("toString", JSValue.num JSNum.one)])]) "retMsg").truthy = true ∧
    jsonStringifyText (JSValue.obj [("retCode", JSValue.num JSNum.one),
      ("retMsg", JSValue.obj [("toString", JSValue.num JSNum.one)])]) =
      "\x7b\"retCode\":1,\"retMsg\":\x7b\"toString\":1\x7d\x7d" ∧
    callBybitAPI (Except.ok (JSValue.obj [("retCode", JSValue.num JSNum.one),
      ("retMsg", JSValue.obj [("toString", JSValue.num JSNum.one)])])) =
      Except.error ⟨"API request failed: Cannot convert object to primitive value"⟩ := by
  decide

set_option maxRecDepth 100000 in
/-- C7, amended. For a response envelope `data` (a body that is neither `null`
nor `undefined`): when `retCode !== 0`, `callBybitAPI` fails; the message of
the error it propagates is `API request failed: ` followed by `retMsg` as a
string when `retMsg` is truthy and convertible to a string (so when it is a
non-empty string), by the TypeError message `Cannot convert object to
primitive value` when `retMsg` is truthy and not convertible, and by
`API error: ` and the JSON serialisation of the envelope when `retMsg` is
falsy; when `retCode === 0` it returns the envelope's `result`. For the
envelope `{retCode: 10001, retMsg: "Invalid signature"}` the message is
`API request failed: Invalid signature`; for `{retCode: 10002, retMsg: ""}` it
is `API request failed: API error: ` followed by the JSON text of the
envelope, and likewise for `{retCode: "0"}`, whose `retCode` is a string; for
`{retCode: 0, result: {list: []}}` the call returns `{list: []}`. A body that
is `null` is no envelope: reading its `retCode` throws. -/
theorem callBybitAPI_envelope (data : JSValue) (h : data.isNullish = false) :
    (strictEqZero (getMember data "retCode") = false →
      (getMember data "retMsg").truthy = true →
      (getMember data "retMsg").convertible = true →
      ∃ s, (getMember data "retMsg").toJSString = Except.ok s ∧
        callBybitAPI (Except.ok data) = Except.error ⟨"API request failed: " ++ s⟩) ∧
    (∀ s, strictEqZero (getMember data "retCode") = false →
      getMember data "retMsg" = JSValue.str s → s ≠ "" →
      callBybitAPI (Except.ok data) = Except.error ⟨"API request failed: " ++ s⟩) ∧
    (strictEqZero (getMember data "retCode") = false →
      (getMember data "retMsg").truthy = true →
      (getMember data "retMsg").convertible = false →
      callBybitAPI (Except.ok data) =
        Except.error ⟨"API request failed: Cannot convert object to primitive value"⟩) ∧
    (strictEqZero (getMember data "retCode") = false →
      (getMember data "retMsg").truthy = false →
      callBybitAPI (Except.ok data) =
        Except.error ⟨"API request failed: " ++ ("API error: " ++ jsonStringifyText data)⟩) ∧
    (strictEqZero (getMember data "retCode") = true →
      callBybitAPI (Except.ok data) = Except.ok (getMember data "result")) ∧
    callBybitAPI (Except.ok (JSValue.obj [("retCode", JSValue.num (JSNum.ofNat 10001)),
        ("retMsg", JSValue.str "Invalid signature")])) =
      Except.error ⟨"API request failed: Invalid signature"⟩ ∧
    callBybitAPI (Except.ok (JSValue.obj [("retCode", JSValue.num (JSNum.ofNat 10002)),
        ("retMsg", JSValue.str "")])) =
      Except.error
        ⟨"API request failed: API error: \x7b\"retCode\":10002,\"retMsg\":\"\"\x7d"⟩ ∧
    callBybitAPI (Except.ok (JSValue.obj [("retCode", JSValue.str "0")])) =
      Except.error ⟨"API request failed: API error: \x7b\"retCode\":\"0\"\x7d"⟩ ∧
    callBybitAPI (Except.ok (JSValue.obj [("retCode", JSValue.num JSNum.zero),
        ("result", JSValue.obj [("list", JSValue.arr [])])])) =
      Except.ok (JSValue.obj [("list", JSValue.arr [])]) ∧
    callBybitAPI (Except.ok JSValue.null) =
      Except.error ⟨"API request failed: Cannot read properties of null (reading 'retCode')"⟩ := by
  have hmsg : strictEqZero (getMember data "retCode") = false →
      callBybitAPI (Except.ok data) =
        rethrow "API request failed: "
          (match ((getMember data "retMsg").or
              (JSValue.str ("API error: " ++ jsonStringifyText data))).toJSString with
            | Except.ok message => Except.error ⟨message⟩
            | Except.error e => Except.error e) := by
    intro hc
    simp [callBybitAPI, getProp_ok data _ h, hc]
  refine ⟨?_, ?_, ?_, ?_, ?_, by decide, by decide, by decide, by decide, by decide⟩
  · intro hc ht hv
    obtain ⟨t, htc⟩ := toChars_of_convertible _ hv
    refine ⟨String.mk t, by rw [JSValue.toJSString, htc], ?_⟩
    rw [hmsg hc]
    simp [JSValue.or, ht, JSValue.toJSString, htc, rethrow]
  · intro s hc hs hne
    rw [hmsg hc, hs]
    have ht : (JSValue.str s).truthy = true := by
      cases s with
      | mk cs =>
        cases cs with
        | nil => exact absurd rfl hne
        | cons c cs => rfl
    simp [JSValue.or, ht, toJSString_str, rethrow]
  · intro hc ht hv
    rw [hmsg hc]
    simp [JSValue.or, ht, JSValue.toJSString, toChars_of_not_convertible _ hv, rethrow,
      cannotConvert]
  · intro hc ht
    rw [hmsg hc]
    simp [JSValue.or, ht, toJSString_str, rethrow]
  · intro hc
    simp [callBybitAPI, getProp_ok data _ h, hc, rethrow]

theorem callBybitAPI_envelope_witness :
    (JSValue.obj [("retCode", JSValue.num (JSNum.ofNat 10001)),
        ("retMsg", JSValue.str "Invalid signature")]).isNullish = false ∧
    strictEqZero (getMember (JSValue.obj [("retCode", JSValue.num (JSNum.ofNat 10001)),
        ("retMsg", JSValue.str "Invalid signature")]) "retCode") = false ∧
    callBybitAPI (Except.ok (JSValue.obj [("retCode", JSValue.num (JSNum.ofNat 10001)),
        ("retMsg", JSValue.str "Invalid signature")])) =
      Except.error ⟨"API request failed: " ++ "Invalid signature"⟩ :=
  ⟨by decide, by decide,
    (callBybitAPI_envelope _ (by decide)).2.1 "Invalid signature" (by decide) (by decide)
      (by decide)⟩

/-- C8, counterexample. A first account whose `totalEquity` is `null`, or the
empty string, carries no balance, and `getUSDTBalance` returns the Number
zero for it. -/
theorem getUSDTBalance_null_equity_gives_zero :
    getUSDTBalance (Except.ok (JSValue.obj [("list", JSValue.arr
      [JSValue.obj [("totalEquity", JSValue.null)]])])) = Except.ok JSNum.zero ∧
    getUSDTBalance (Except.ok (JSValue.obj [("list", JSValue.arr
      [JSValue.obj [("totalEquity", JSValue.str "")]])])) = Except.ok JSNum.zero := by
  decide

/-- The operation `ToNumber` returns on a convertible value and throws the
TypeError on any other. -/
theorem toNumber_cases (v : JSValue) :
    (v.convertible = true → ∃ n, v.toNumber = Except.ok n) ∧
    (v.convertible = false → v.toNumber = Except.error cannotConvert) := by
  constructor
  · intro h
    obtain ⟨t, ht⟩ := toChars_of_convertible v h
    cases v with
    | undefined => exact ⟨_, rfl⟩
    | null => exact ⟨_, rfl⟩
    | bool b => cases b <;> exact ⟨_, rfl⟩
    | num n => exact ⟨_, rfl⟩
    | str s => exact ⟨_, rfl⟩
    | arr items => exact ⟨stringToNumber t, by simp [JSValue.toNumber, ht]⟩
    | obj props => exact ⟨stringToNumber t, by simp [JSValue.toNumber, ht]⟩
  · intro h
    have ht := toChars_of_not_convertible v h
    cases v with
    | undefined => simp [JSValue.convertible] at h
    | null => simp [JSValue.convertible] at h
    | bool b => simp [JSValue.convertible] at h
    | num n => simp [JSValue.convertible] at h
    | str s => simp [JSValue.convertible] at h
    | arr items => simp [JSValue.toNumber, ht]
    | obj props => simp [JSValue.toNumber, ht]

/-- C8, amended. `getUSDTBalance` fails with `No accounts found` when
`data?.list?.[0]` is falsy, which is the case when the account list is absent
or empty; otherwise it returns `Number(totalEquity)` of the first account
entry when that conversion returns, and fails with the TypeError message
`Cannot convert object to primitive value` when `totalEquity` is not
convertible (an object with an own `toString` member, or an array that holds
one). An absent `totalEquity` gives NaN, never zero; a `totalEquity` that is
a Number is returned as it is; a `totalEquity` that is `null` or the empty
string gives 0. For `{list: [{totalEquity: "282.65"}]}` the result is 282.65,
for `{list: [{}]}` it is NaN, for `{list: []}` the call fails; a
`totalEquity` of `["12.5"]` gives 12.5, one of `[null]` gives 0 and one of
`"12px"` gives NaN. -/
theorem getUSDTBalance_first_account (data : JSValue) :
    ((optGet (optGet data "list") "0").truthy = false →
      getUSDTBalance (Except.ok data) =
        Except.error ⟨"Failed to get balance: No accounts found"⟩) ∧
    (optGet data "list" = JSValue.undefined ∨ optGet data "list" = JSValue.null ∨
        optGet data "list" = JSValue.arr [] →
      getUSDTBalance (Except.ok data) =
        Except.error ⟨"Failed to get balance: No accounts found"⟩) ∧
    ((optGet (optGet data "list") "0").truthy = true →
      (optGet (optGet (optGet data "list") "0") "totalEquity").convertible = true →
      ∃ n, (optGet (optGet (optGet data "list") "0") "totalEquity").toNumber = Except.ok n ∧
        getUSDTBalance (Except.ok data) = Except.ok n) ∧
    ((optGet (optGet data "list") "0").truthy = true →
      (optGet (optGet (optGet data "list") "0") "totalEquity").convertible = false →
      getUSDTBalance (Except.ok data) =
        Except.error ⟨"Failed to get balance: Cannot convert object to primitive value"⟩) ∧
    ((optGet (optGet data "list") "0").truthy = true →
      optGet (optGet (optGet data "list") "0") "totalEquity" = JSValue.undefined →
      getUSDTBalance (Except.ok data) = Except.ok JSNum.nan) ∧
    (∀ n, (optGet (optGet data "list") "0").truthy = true →
      optGet (optGet (optGet data "list") "0") "totalEquity" = JSValue.num n →
      getUSDTBalance (Except.ok data) = Except.ok n) ∧
    ((optGet (optGet data "list") "0").truthy = true →
      optGet (optGet (optGet data "list") "0") "totalEquity" = JSValue.null ∨
        optGet (optGet (optGet data "list") "0") "totalEquity" = JSValue.str "" →
      getUSDTBalance (Except.ok data) = Except.ok JSNum.zero) ∧
    getUSDTBalance (Except.ok (JSValue.obj [("list", JSValue.arr
      [JSValue.obj [("totalEquity", JSValue.str "282.65")]])])) =
      Except.ok (JSNum.ofDecimal false 28265 (-2)) ∧
    getUSDTBalance (Except.ok (JSValue.obj [("list", JSValue.arr [JSValue.obj []])])) =
      Except.ok JSNum.nan ∧
    getUSDTBalance (Except.ok (JSValue.obj [("list", JSValue.arr [])])) =
      Except.error ⟨"Failed to get balance: No accounts found"⟩ ∧
    getUSDTBalance (Except.ok (JSValue.obj [("list", JSValue.arr
      [JSValue.obj [("totalEquity", JSValue.arr [JSValue.str "12.5"])]])])) =
      Except.ok (JSNum.fin false 7036874417766400 (-49)) ∧
    getUSDTBalance (Except.ok (JSValue.obj [("list", JSValue.arr
      [JSValue.obj [("totalEquity", JSValue.arr [JSValue.null])]])])) = Except.ok JSNum.zero ∧
    getUSDTBalance (Except.ok (JSValue.obj [("list", JSValue.arr
      [JSValue.obj [("totalEquity", JSValue.str "12px")]])])) = Except.ok JSNum.nan := by
  have main : getUSDTBalance (Except.ok data) =
      (if (optGet (optGet data "list") "0").truthy then
        rethrow "Failed to get balance: "
          (optGet (optGet (optGet data "list") "0") "totalEquity").toNumber
      else Except.error ⟨"Failed to get balance: No accounts found"⟩) := by
    unfold getUSDTBalance
    cases hl : (optGet (optGet data "list") "0").truthy <;> simp [rethrow, hl]
  refine ⟨?_, ?_, ?_, ?_, ?_, ?_, ?_, by decide, by decide, by decide, by decide, by decide,
    by decide⟩
  · intro ht
    rw [main, ht]
    rfl
  · intro hl
    rw [main]
    rcases hl with hl | hl | hl <;> rw [hl] <;> rfl
  · intro ht hv
    obtain ⟨n, hn⟩ := (toNumber_cases _).1 hv
    exact ⟨n, hn, by rw [main, ht, hn]; rfl⟩
  · intro ht hv
    rw [main, ht, (toNumber_cases _).2 hv]
    rfl
  · intro ht hu
    rw [main, ht, hu]
    rfl
  · intro n ht hu
    rw [main, ht, hu]
    rfl
  · intro ht hu
    rw [main, ht]
    rcases hu with hu | hu <;> rw [hu] <;> rfl

/-- C9, counterexample. The entry `{size: "1", avgPrice: "abc", leverage: "x"}`
is materialised, and its unparsable `avgPrice` and `leverage` give `entry` and
`leverage` the value NaN, not the defaults 0 and 1. -/
theorem getOpenPositions_unparsable_field_gives_nan :
    getOpenPositions (Except.ok (JSValue.obj [("list", JSValue.arr
      [JSValue.obj [("size", JSValue.str "1"), ("avgPrice", JSValue.str "abc"),
        ("leverage", JSValue.str "x")]])])) =
      Except.ok [{ symbol := JSValue.str "N/A", side := JSValue.str "N/A", size := JSNum.one,
                   entry := JSNum.nan, pnl := JSNum.zero, leverage := JSNum.nan,
                   liqPrice := JSNum.zero }] ∧
    JSNum.nan ≠ JSNum.zero ∧ JSNum.nan ≠ JSNum.one := by
  decide

/-- C9, amended. For every entry `pos` that `getOpenPositions` materialises as
the record `r` (the entry passes the size test and the callback of `map`
returns `r`): `symbol` and `side` are the upstream value when it is truthy and
`"N/A"` otherwise (so when it is absent); `size` is `parseFloat` of the
upstream size; each of `entry` (from `avgPrice`), `pnl` (from `unrealisedPnl`)
and `liqPrice` is `parseFloat` of the upstream value when that value is truthy
and 0 when it is falsy (so when it is missing), and `leverage` likewise with 1
for 0. A truthy value that does not parse gives NaN. For the entry
`{symbol: "BTCUSDT", side: "Buy", size: "1.5", avgPrice: "50000",
unrealisedPnl: "120.5", leverage: "10", liqPrice: "45000"}` the record is
`{symbol: "BTCUSDT", side: "Buy", size: 1.5, entry: 50000, pnl: 120.5,
leverage: 10, liqPrice: 45000}`; as binary fractions, 1.5 is
`6755399441055744 * 2 ^ (-52)` and 120.5 is `8479433673408512 * 2 ^ (-46)`;
`parseFloat("12px")` is 12. -/
theorem positionRecord_fields (pos : JSValue) (r : Position)
    (h : positionFilter pos = Except.ok true) (hr : positionRecord pos = Except.ok r) :
    r.symbol =
      (if (getMember pos "symbol").truthy then getMember pos "symbol" else JSValue.str "N/A") ∧
    r.side =
      (if (getMember pos "side").truthy then getMember pos "side" else JSValue.str "N/A") ∧
    parseFloat (getMember pos "size") = Except.ok r.size ∧
    (if (getMember pos "avgPrice").truthy then
        parseFloat (getMember pos "avgPrice") = Except.ok r.entry
      else r.entry = JSNum.zero) ∧
    (if (getMember pos "unrealisedPnl").truthy then
        parseFloat (getMember pos "unrealisedPnl") = Except.ok r.pnl
      else r.pnl = JSNum.zero) ∧
    (if (getMember pos "leverage").truthy then
        parseFloat (getMember pos "leverage") = Except.ok r.leverage
      else r.leverage = JSNum.one) ∧
    (if (getMember pos "liqPrice").truthy then
        parseFloat (getMember pos "liqPrice") = Except.ok r.liqPrice
      else r.liqPrice = JSNum.zero) ∧
    positionRecord (JSValue.obj [("symbol", JSValue.str "BTCUSDT"), ("side", JSValue.str "Buy"),
        ("size", JSValue.str "1.5"), ("avgPrice", JSValue.str "50000"),
        ("unrealisedPnl", JSValue.str "120.5"), ("leverage", JSValue.str "10"),
        ("liqPrice", JSValue.str "45000")]) =
      Except.ok { symbol := JSValue.str "BTCUSDT", side := JSValue.str "Buy",
                  size := JSNum.ofDecimal false 15 (-1), entry := JSNum.ofNat 50000,
                  pnl := JSNum.ofDecimal false 1205 (-1), leverage := JSNum.ofNat 10,
                  liqPrice := JSNum.ofNat 45000 } ∧
    parseFloat (JSValue.str "1.5") = Except.ok (JSNum.fin false 6755399441055744 (-52)) ∧
    parseFloat (JSValue.str "120.5") = Except.ok (JSNum.fin false 8479433673408512 (-46)) ∧
    parseFloat (JSValue.str "12px") = Except.ok (JSNum.ofNat 12) := by
  have hfield : ∀ (v d : JSValue) (x y : JSNum), parseFloat d = Except.ok y →
      parseFloat (v.or d) = Except.ok x →
      (if v.truthy then parseFloat v = Except.ok x else x = y) := by
    intro v d x y hd hx
    rw [parseFloat_or] at hx
    cases ht : v.truthy
    · rw [ht] at hx
      simp only [Bool.false_eq_true, if_false] at hx ⊢
      rw [hd] at hx
      cases hx
      rfl
    · rw [ht] at hx
      simpa using hx
  obtain ⟨_, h1, h2, _, h4, h5, h6, h7⟩ := positionRecord_inv pos r hr
  have hsize : parseFloat (getMember pos "size") = Except.ok r.size := by
    obtain ⟨_, ht, x, hx, _⟩ := positionFilter_true pos h
    have hr4 := (positionRecord_inv pos r hr).2.2.2.1
    rw [parseFloat_or, ht] at hr4
    simpa using hr4
  refine ⟨?_, ?_, hsize, hfield _ _ _ _ parseFloat_lit0 h4, hfield _ _ _ _ parseFloat_lit0 h5,
    hfield _ _ _ _ parseFloat_lit1 h6, hfield _ _ _ _ parseFloat_lit0 h7, by decide,
    by decide, by decide, by decide⟩
  · rw [h1]; rfl
  · rw [h2]; rfl

theorem positionRecord_fields_witness :
    positionFilter (JSValue.obj [("symbol", JSValue.str "ETHUSDT"), ("size", JSValue.str "2"),
      ("avgPrice", JSValue.str "3100.5")]) = Except.ok true ∧
    positionRecord (JSValue.obj [("symbol", JSValue.str "ETHUSDT"), ("size", JSValue.str "2"),
      ("avgPrice", JSValue.str "3100.5")]) =
      Except.ok { symbol := JSValue.str "ETHUSDT", side := JSValue.str "N/A",
                  size := JSNum.ofNat 2, entry := JSNum.ofDecimal false 31005 (-1),
                  pnl := JSNum.zero, leverage := JSNum.one, liqPrice := JSNum.zero } ∧
    parseFloat (getMember (JSValue.obj [("symbol", JSValue.str "ETHUSDT"),
      ("size", JSValue.str "2"), ("avgPrice", JSValue.str "3100.5")]) "size") =
      Except.ok (JSNum.ofNat 2) :=
  ⟨by decide, by decide,
    (positionRecord_fields
      (JSValue.obj [("symbol", JSValue.str "ETHUSDT"), ("size", JSValue.str "2"),
        ("avgPrice", JSValue.str "3100.5")])
      { symbol := JSValue.str "ETHUSDT", side := JSValue.str "N/A",
        size := JSNum.ofNat 2, entry := JSNum.ofDecimal false 31005 (-1),
        pnl := JSNum.zero, leverage := JSNum.one, liqPrice := JSNum.zero }
      (by decide) (by decide)).2.2.1⟩

/-- The record that the callback of `map` in `getClosedPnl` returns, read off
its six conversions. -/
theorem tradeRecord_inv (trade : JSValue) (r : ClosedTrade)
    (h : tradeRecord trade = Except.ok r) :
    trade.isNullish = false ∧
    r.symbol = (getMember trade "symbol").or litNA ∧
    r.side = (getMember trade "side").or litNA ∧
    parseFloat ((getMember trade "size").or lit0) = Except.ok r.qty ∧
    parseFloat ((getMember trade "entryPrice").or lit0) = Except.ok r.entry ∧
    parseFloat ((getMember trade "exitPrice").or lit0) = Except.ok r.exit ∧
    parseFloat ((getMember trade "closedPnl").or lit0) = Except.ok r.pnl ∧
    (∃ x, parseInt ((getMember trade "createdTime").or lit0) = Except.ok x ∧
      r.createdTime = newDate x) ∧
    (∃ x, parseInt ((getMember trade "updatedTime").or lit0) = Except.ok x ∧
      r.updatedTime = newDate x) := by
  have hn : trade.isNullish = false := by
    cases trade <;> first | rfl | (exfalso; revert h; simp [tradeRecord, getProp, bind, Except.bind])
  unfold tradeRecord at h
  simp only [getProp_ok trade _ hn, bind, Except.bind, pure, Except.pure] at h
  cases h1 : parseFloat ((getMember trade "size").or lit0) <;> rw [h1] at h <;>
    simp only [reduceCtorEq] at h
  cases h2 : parseFloat ((getMember trade "entryPrice").or lit0) <;> rw [h2] at h <;>
    simp only [reduceCtorEq] at h
  cases h3 : parseFloat ((getMember trade "exitPrice").or lit0) <;> rw [h3] at h <;>
    simp only [reduceCtorEq] at h
  cases h4 : parseFloat ((getMember trade "closedPnl").or lit0) <;> rw [h4] at h <;>
    simp only [reduceCtorEq] at h
  cases h5 : parseInt ((getMember trade "createdTime").or lit0) <;> rw [h5] at h <;>
    simp only [reduceCtorEq] at h
  cases h6 : parseInt ((getMember trade "updatedTime").or lit0) <;> rw [h6] at h <;>
    simp only [reduceCtorEq] at h
  cases h
  exact ⟨hn, rfl, rfl, rfl, rfl, rfl, rfl, ⟨_, rfl, rfl⟩, ⟨_, rfl, rfl⟩⟩

/-- The callback of `map` in `getClosedPnl` returns on an entry that is
neither `undefined` nor `null` and whose six converted fields are
convertible. -/
theorem tradeRecord_of_convertible (trade : JSValue) (hn : trade.isNullish = false)
    (hc : ∀ k ∈ ["size", "entryPrice", "exitPrice", "closedPnl", "createdTime", "updatedTime"],
      (getMember trade k).convertible = true) :
    ∃ r, tradeRecord trade = Except.ok r := by
  obtain ⟨a, ha⟩ := parseFloat_of_convertible ((getMember trade "size").or lit0)
    (by rw [or_convertible _ _ (by decide)]; exact hc _ (by simp))
  obtain ⟨b, hb⟩ := parseFloat_of_convertible ((getMember trade "entryPrice").or lit0)
    (by rw [or_convertible _ _ (by decide)]; exact hc _ (by simp))
  obtain ⟨c, hcc⟩ := parseFloat_of_convertible ((getMember trade "exitPrice").or lit0)
    (by rw [or_convertible _ _ (by decide)]; exact hc _ (by simp))
  obtain ⟨d, hd⟩ := parseFloat_of_convertible ((getMember trade "closedPnl").or lit0)
    (by rw [or_convertible _ _ (by decide)]; exact hc _ (by simp))
  obtain ⟨e, he⟩ := parseInt_of_convertible ((getMember trade "createdTime").or lit0)
    (by rw [or_convertible _ _ (by decide)]; exact hc _ (by simp))
  obtain ⟨f, hf⟩ := parseInt_of_convertible ((getMember trade "updatedTime").or lit0)
    (by rw [or_convertible _ _ (by decide)]; exact hc _ (by simp))
  refine ⟨{ symbol := (getMember trade "symbol").or litNA,
             side := (getMember trade "side").or litNA,
             qty := a, entry := b, exit := c, pnl := d,
             createdTime := newDate e, updatedTime := newDate f }, ?_⟩
  unfold tradeRecord
  simp only [getProp_ok trade _ hn, bind, Except.bind, pure, Except.pure, ha, hb, hcc, hd, he, hf]

/-- C10, counterexample. The list `[{symbol: "BTCUSDT", size: {toString: 1}}]`
holds one trade record, and `getClosedPnl` returns no list for it: the
conversion of the size throws and the call fails. -/
theorem getClosedPnl_inconvertible_field_fails :
    getClosedPnl (Except.ok (JSValue.obj [("list", JSValue.arr
      [JSValue.obj [("symbol", JSValue.str "BTCUSDT"),
        ("size", JSValue.obj [("toString", JSValue.num JSNum.one)])]])])) =
      Except.error ⟨"Failed to get closed pnl: Cannot convert object to primitive value"⟩ := by
  decide

set_option maxRecDepth 100000 in
/-- C10, amended. When the `list` of the result payload is an array of trade
records (entries that are neither `null` nor `undefined`) whose `size`,
`entryPrice`, `exitPrice`, `closedPnl`, `createdTime` and `updatedTime` are
convertible to a string, `getClosedPnl` returns the list of their
normalisations: same length, the i-th element is the normalisation of the
i-th record, nothing is filtered out. In the normalisation `r` of a record,
`symbol` and `side` are the upstream value when it is truthy and `"N/A"`
otherwise; `qty` (from `size`), `entry` (from `entryPrice`), `exit` (from
`exitPrice`) and `pnl` (from `closedPnl`) are `parseFloat` of the upstream
value when it is truthy and 0 otherwise, so a record without `entryPrice` gets
`entry = 0`; the two timestamps are the Date of `parseInt` of the upstream
value when it is truthy and epoch 0 otherwise. For the record
`{symbol: "BTCUSDT", side: "Sell", size: "0.5", entryPrice: "50000",
exitPrice: "51000.5", closedPnl: "-500.25", createdTime: "1700000000000",
updatedTime: "1700000001000"}` followed by the record `{symbol: "ETHUSDT"}`
the result holds those values and then the defaults; the timestamps go
through `parseInt`, so `"0x10"` gives 16 ms and `"1e3"` gives 1 ms. An entry
that is `null` is no record: reading its `symbol` throws. -/
theorem getClosedPnl_maps_every_trade (data : JSValue) (list : List JSValue)
    (h : optGet data "list" = JSValue.arr list) (hrec : ∀ t ∈ list, t.isNullish = false)
    (hc : ∀ t ∈ list, ∀ k ∈ ["size", "entryPrice", "exitPrice", "closedPnl", "createdTime",
      "updatedTime"], (getMember t k).convertible = true) :
    (∃ trades, getClosedPnl (Except.ok data) = Except.ok trades ∧
      trades.length = list.length ∧
      List.Forall₂ (fun t r => tradeRecord t = Except.ok r) list trades) ∧
    (∀ t r, tradeRecord t = Except.ok r →
      r.symbol =
        (if (getMember t "symbol").truthy then getMember t "symbol" else JSValue.str "N/A") ∧
      r.side =
        (if (getMember t "side").truthy then getMember t "side" else JSValue.str "N/A") ∧
      (if (getMember t "size").truthy then parseFloat (getMember t "size") = Except.ok r.qty
        else r.qty = JSNum.zero) ∧
      (if (getMember t "entryPrice").truthy then
          parseFloat (getMember t "entryPrice") = Except.ok r.entry
        else r.entry = JSNum.zero) ∧
      (if (getMember t "exitPrice").truthy then
          parseFloat (getMember t "exitPrice") = Except.ok r.exit
        else r.exit = JSNum.zero) ∧
      (if (getMember t "closedPnl").truthy then
          parseFloat (getMember t "closedPnl") = Except.ok r.pnl
        else r.pnl = JSNum.zero) ∧
      (if (getMember t "createdTime").truthy then
          ∃ x, parseInt (getMember t "createdTime") = Except.ok x ∧ r.createdTime = newDate x
        else r.createdTime = ⟨some 0⟩) ∧
      (if (getMember t "updatedTime").truthy then
          ∃ x, parseInt (getMember t "updatedTime") = Except.ok x ∧ r.updatedTime = newDate x
        else r.updatedTime = ⟨some 0⟩)) ∧
    getClosedPnl (Except.ok (JSValue.obj [("list", JSValue.arr
        [JSValue.obj [("symbol", JSValue.str "BTCUSDT"), ("side", JSValue.str "Sell"),
          ("size", JSValue.str "0.5"), ("entryPrice", JSValue.str "50000"),
          ("exitPrice", JSValue.str "51000.5"), ("closedPnl", JSValue.str "-500.25"),
          ("createdTime", JSValue.str "1700000000000"),
          ("updatedTime", JSValue.str "1700000001000")],
         JSValue.obj [("symbol", JSValue.str "ETHUSDT")]])])) =
      Except.ok
        [{ symbol := JSValue.str "BTCUSDT", side := JSValue.str "Sell",
           qty := JSNum.ofDecimal false 5 (-1), entry := JSNum.ofNat 50000,
           exit := JSNum.ofDecimal false 510005 (-1), pnl := JSNum.ofDecimal true 50025 (-2),
           createdTime := ⟨some 1700000000000⟩, updatedTime := ⟨some 1700000001000⟩ },
         { symbol := JSValue.str "ETHUSDT", side := JSValue.str "N/A",
           qty := JSNum.zero, entry := JSNum.zero, exit := JSNum.zero, pnl := JSNum.zero,
           createdTime := ⟨some 0⟩, updatedTime := ⟨some 0⟩ }] ∧
    tradeRecord (JSValue.obj [("createdTime", JSValue.str "0x10"),
        ("updatedTime", JSValue.str "1e3")]) =
      Except.ok
        { symbol := JSValue.str "N/A", side := JSValue.str "N/A",
          qty := JSNum.zero, entry := JSNum.zero, exit := JSNum.zero, pnl := JSNum.zero,
          createdTime := ⟨some 16⟩, updatedTime := ⟨some 1⟩ } ∧
    getClosedPnl (Except.ok (JSValue.obj [("list", JSValue.arr [JSValue.null])])) =
      Except.error
        ⟨"Failed to get closed pnl: Cannot read properties of null (reading 'symbol')"⟩ := by
  have hfield : ∀ (v d : JSValue) (x y : JSNum), parseFloat d = Except.ok y →
      parseFloat (v.or d) = Except.ok x →
      (if v.truthy then parseFloat v = Except.ok x else x = y) := by
    intro v d x y hd hx
    rw [parseFloat_or] at hx
    cases ht : v.truthy
    · rw [ht] at hx
      simp only [Bool.false_eq_true, if_false] at hx ⊢
      rw [hd] at hx
      cases hx
      rfl
    · rw [ht] at hx
      simpa using hx
  have htime : ∀ (v : JSValue) (d : JSDate),
      (∃ x, parseInt (v.or lit0) = Except.ok x ∧ d = newDate x) →
      (if v.truthy then ∃ x, parseInt v = Except.ok x ∧ d = newDate x else d = ⟨some 0⟩) := by
    intro v d hx
    obtain ⟨x, hx, hd⟩ := hx
    rw [parseInt_or] at hx
    cases ht : v.truthy
    · rw [ht] at hx
      simp only [Bool.false_eq_true, if_false] at hx ⊢
      rw [parseInt_lit0] at hx
      cases hx
      rw [hd]
      decide
    · rw [ht] at hx
      simp only [if_true] at hx ⊢
      exact ⟨x, hx, hd⟩
  refine ⟨?_, ?_, by decide, by decide, by decide⟩
  · obtain ⟨trades, htr, hall⟩ := mapThrowing_ok tradeRecord list
      (fun t ht => tradeRecord_of_convertible t (hrec t ht) (hc t ht))
    refine ⟨trades, ?_, hall.length_eq.symm, hall⟩
    unfold getClosedPnl
    simp only [h, htr]
    rfl
  · intro t r hr
    obtain ⟨_, h1, h2, h3, h4, h5, h6, h7, h8⟩ := tradeRecord_inv t r hr
    refine ⟨by rw [h1]; rfl, by rw [h2]; rfl, hfield _ _ _ _ parseFloat_lit0 h3,
      hfield _ _ _ _ parseFloat_lit0 h4, hfield _ _ _ _ parseFloat_lit0 h5,
      hfield _ _ _ _ parseFloat_lit0 h6, htime _ _ h7, htime _ _ h8⟩

theorem getClosedPnl_maps_every_trade_witness :
    optGet (JSValue.obj [("list", JSValue.arr
        [JSValue.obj [("symbol", JSValue.str "BTCUSDT"), ("closedPnl", JSValue.str "-3.5")],
         JSValue.obj [("symbol", JSValue.str "ETHUSDT"), ("entryPrice", JSValue.str "3100")]])])
      "list" = JSValue.arr
        [JSValue.obj [("symbol", JSValue.str "BTCUSDT"), ("closedPnl", JSValue.str "-3.5")],
         JSValue.obj [("symbol", JSValue.str "ETHUSDT"), ("entryPrice", JSValue.str "3100")]] ∧
    ∃ trades, getClosedPnl (Except.ok (JSValue.obj [("list", JSValue.arr
        [JSValue.obj [("symbol", JSValue.str "BTCUSDT"), ("closedPnl", JSValue.str "-3.5")],
         JSValue.obj [("symbol", JSValue.str "ETHUSDT"), ("entryPrice", JSValue.str "3100")]])])) =
        Except.ok trades ∧
      trades.length =
        [JSValue.obj [("symbol", JSValue.str "BTCUSDT"), ("closedPnl", JSValue.str "-3.5")],
         JSValue.obj [("symbol", JSValue.str "ETHUSDT"),
           ("entryPrice", JSValue.str "3100")]].length ∧
      List.Forall₂ (fun t r => tradeRecord t = Except.ok r)
        [JSValue.obj [("symbol", JSValue.str "BTCUSDT"), ("closedPnl", JSValue.str "-3.5")],
         JSValue.obj [("symbol", JSValue.str "ETHUSDT"), ("entryPrice", JSValue.str "3100")]]
        trades :=
  ⟨by decide, (getClosedPnl_maps_every_trade _ _ (by decide) (by decide) (by decide)).1⟩

/-- A new key that is not an array index is appended after the existing
properties. -/
theorem setOwn_new_key (acc : Props) (k : String) (v : JSValue)
    (hk : k ∉ acc.map Prod.fst) (hi : arrayIndex? k = none) :
    setOwn acc k v = acc ++ [(k, v)] := by
  have hany : acc.any (fun p => p.1 == k) = false := by
    rw [List.any_eq_false]
    intro p hp hpk
    exact hk (List.mem_map.mpr ⟨p, hp, by simpa using hpk⟩)
  simp [setOwn, hany, hi]

/-- Assigning distinct keys, none an array index or `__proto__`, one after
another appends them in that order. -/
theorem foldl_assign_plain (params : Props) :
    ∀ (ks : List String) (acc : Props), (acc.map Prod.fst ++ ks).Nodup →
      (∀ k ∈ ks, arrayIndex? k = none ∧ k ≠ "__proto__") →
      ks.foldl (fun acc key => assignProp acc key (getOwn params key)) acc =
        acc ++ ks.map (fun k => (k, getOwn params k))
  | [], acc, _, _ => by simp
  | k :: ks, acc, nd, hk => by
    have hkk := hk k (List.mem_cons_self k ks)
    have hnot : k ∉ acc.map Prod.fst := by
      intro hmem
      have := List.nodup_append.mp nd
      exact this.2.2 hmem (List.mem_cons_self k ks)
    have step : assignProp acc k (getOwn params k) = acc ++ [(k, getOwn params k)] := by
      unfold assignProp
      rw [if_neg hkk.2]
      exact setOwn_new_key acc k _ hnot hkk.1
    rw [List.foldl_cons, step]
    rw [foldl_assign_plain params ks (acc ++ [(k, getOwn params k)])]
    · simp
    · have : ((acc ++ [(k, getOwn params k)]).map Prod.fst ++ ks) = acc.map Prod.fst ++ k :: ks := by
        simp
      rw [this]
      exact nd
    · exact fun k2 hk2 => hk k2 (List.mem_cons_of_mem k hk2)

/-- For a parameter object none of whose keys is an array index or
`__proto__`, `generateSignatureV5` signs `timestamp ++ apiKey ++ recvWindow`
followed by the form-encoding of the parameters in ascending code-unit order
of their keys (and throws where that encoding throws). -/
theorem generateSignatureV5_plain_keys (BYBIT_API_KEY apiSecret timestamp recvWindow : String)
    (params : Props) (nd : (params.map Prod.fst).Nodup)
    (hk : ∀ k ∈ params.map Prod.fst, arrayIndex? k = none ∧ k ≠ "__proto__") :
    generateSignatureV5 BYBIT_API_KEY apiSecret timestamp recvWindow params =
      (match sortedQueryString params with
        | Except.ok q =>
          Except.ok (hmacSha256Hex apiSecret (timestamp ++ BYBIT_API_KEY ++ recvWindow ++ q))
        | Except.error e => Except.error e) := by
  have hperm : (sortKeys (params.map Prod.fst)).Perm (params.map Prod.fst) :=
    List.perm_insertionSort keyLe _
  have h := foldl_assign_plain params (sortKeys (params.map Prod.fst)) []
    (by simpa using hperm.nodup_iff.mpr nd)
    (fun k hk2 => hk k (hperm.mem_iff.mp hk2))
  have hq : queryString params = sortedQueryString params := by
    unfold queryString orderedParams sortedQueryString urlSearchParamsToString
    rw [h]
    simp
  unfold generateSignatureV5 signString
  rw [hq]
  cases sortedQueryString params <;> rfl

theorem generateSignatureV5_plain_keys_witness :
    ([("settleCoin", JSValue.str "USDT"), ("category", JSValue.str "linear")].map Prod.fst).Nodup ∧
    generateSignatureV5 "KEY" "secret" "1700000000000" "5000"
        [("settleCoin", JSValue.str "USDT"), ("category", JSValue.str "linear")] =
      (match sortedQueryString
          [("settleCoin", JSValue.str "USDT"), ("category", JSValue.str "linear")] with
        | Except.ok q =>
          Except.ok (hmacSha256Hex "secret" ("1700000000000" ++ "KEY" ++ "5000" ++ q))
        | Except.error e => Except.error e) :=
  ⟨by decide, generateSignatureV5_plain_keys "KEY" "secret" "1700000000000" "5000" _
    (by decide) (by decide)⟩

set_option maxRecDepth 1000000 in
/-- C2, at the failing input. For the parameter object `{"9": "a", "10": "b"}`
the ascending code-unit order of the keys is `"10"`, `"9"`, so the claim's
query string is `10=b&9=a`; `generateSignatureV5` signs `9=a&10=b`, the
own-property order of the object it rebuilds, and its signature is not the
digest the claim describes. (With keys that are no array indices the order is
the sorted one: `{b: "a b&c=ü", a: 1.5}` gives `a=1.5&b=a+b%26c%3D%C3%BC`.) -/
theorem generateSignatureV5_integer_like_keys :
    sortKeys ["9", "10"] = ["10", "9"] ∧
    sortedQueryString [("9", JSValue.str "a"), ("10", JSValue.str "b")] =
      Except.ok "10=b&9=a" ∧
    queryString [("9", JSValue.str "a"), ("10", JSValue.str "b")] = Except.ok "9=a&10=b" ∧
    generateSignatureV5 "KEY" "secret" "1700000000000" "5000"
        [("9", JSValue.str "a"), ("10", JSValue.str "b")] =
      Except.ok (hmacSha256Hex "secret" "1700000000000KEY50009=a&10=b") ∧
    generateSignatureV5 "KEY" "secret" "1700000000000" "5000"
        [("9", JSValue.str "a"), ("10", JSValue.str "b")] ≠
      Except.ok (hmacSha256Hex "secret" ("1700000000000" ++ "KEY" ++ "5000" ++ "10=b&9=a")) ∧
    queryString [("b", JSValue.str "a b&c=ü"), ("a", JSValue.num (JSNum.ofDecimal false 15 (-1)))] =
      Except.ok "a=1.5&b=a+b%26c%3D%C3%BC" := by
  refine ⟨by decide, by decide, by decide, by decide, ?_, by decide⟩
  decide

/-- Reading every key of an object back in own-property order gives the
object. -/
theorem map_getOwn_self : ∀ (params : Props), (params.map Prod.fst).Nodup →
    (params.map Prod.fst).map (fun k => (k, getOwn params k)) = params
  | [], _ => rfl
  | (k, v) :: rest, nd => by
    simp only [List.map_cons, List.nodup_cons] at nd
    have ih := map_getOwn_self rest nd.2
    have hrest : (rest.map Prod.fst).map (fun k2 => (k2, getOwn ((k, v) :: rest) k2)) =
        (rest.map Prod.fst).map (fun k2 => (k2, getOwn rest k2)) := by
      apply List.map_congr_left
      intro k2 hk2
      have hne : (k2 == k) = false := by
        simp only [beq_eq_false_iff_ne, ne_eq]
        intro e
        exact nd.1 (e ▸ hk2)
      simp [getOwn, List.lookup, hne]
    simp only [List.map_cons]
    rw [hrest, ih]
    simp [getOwn, List.lookup]

/-- For a parameter object whose keys are already in ascending code-unit order
and none of whose keys is an array index or `__proto__`, the query string that
is signed is the signer's own serialisation of the object as it stands. -/
theorem queryString_of_sorted_plain_keys (params : Props) (nd : (params.map Prod.fst).Nodup)
    (hk : ∀ k ∈ params.map Prod.fst, arrayIndex? k = none ∧ k ≠ "__proto__")
    (hs : (params.map Prod.fst).Sorted keyLe) :
    queryString params = urlSearchParamsToString params := by
  have hsort : sortKeys (params.map Prod.fst) = params.map Prod.fst :=
    List.Sorted.insertionSort_eq hs
  have h := foldl_assign_plain params (sortKeys (params.map Prod.fst)) []
    (by rw [hsort]; simpa using nd) (fun k hk2 => hk k (by rw [hsort] at hk2; exact hk2))
  unfold queryString orderedParams
  rw [h, hsort, map_getOwn_self params nd]
  simp

theorem queryString_of_sorted_plain_keys_witness :
    ([("category", JSValue.str "linear"), ("settleCoin", JSValue.str "USDT")].map Prod.fst).Nodup ∧
    queryString [("category", JSValue.str "linear"), ("settleCoin", JSValue.str "USDT")] =
      urlSearchParamsToString
        [("category", JSValue.str "linear"), ("settleCoin", JSValue.str "USDT")] :=
  ⟨by decide, queryString_of_sorted_plain_keys _ (by decide) (by decide) (by decide)⟩

/-- Whatever serialiser the HTTP client applies to the `params` object it is
handed: if it tells apart two objects that hold the same key/value pairs in
different property orders, the query string that is signed differs from the
serialisation of at least one of them. -/
theorem signed_query_misses_order_sensitive_wire (wire : Props → String) (p1 p2 : Props)
    (nd : (p1.map Prod.fst).Nodup) (h : p1.Perm p2) (hw : wire p1 ≠ wire p2) :
    queryString p1 ≠ Except.ok (wire p1) ∨ queryString p2 ≠ Except.ok (wire p2) := by
  have hq : queryString p1 = queryString p2 := by
    unfold queryString
    rw [orderedParams_eq_of_perm h nd]
  by_cases h1 : queryString p1 = Except.ok (wire p1)
  · right
    intro h2
    have h3 : Except.ok (wire p1) = (Except.ok (wire p2) : Except JSError String) :=
      h1.symm.trans (hq.trans h2)
    exact hw (Except.ok.inj h3)
  · exact Or.inl h1

theorem signed_query_misses_order_sensitive_wire_witness :
    ([("category", JSValue.str "linear"), ("settleCoin", JSValue.str "USDT"),
        ("limit", JSValue.num (JSNum.ofNat 50))].map Prod.fst).Nodup ∧
    (queryString [("category", JSValue.str "linear"), ("settleCoin", JSValue.str "USDT"),
        ("limit", JSValue.num (JSNum.ofNat 50))] ≠
      Except.ok (String.intercalate "&" ([("category", JSValue.str "linear"),
        ("settleCoin", JSValue.str "USDT"),
        ("limit", JSValue.num (JSNum.ofNat 50))].map Prod.fst)) ∨
    queryString [("category", JSValue.str "linear"), ("limit", JSValue.num (JSNum.ofNat 50)),
        ("settleCoin", JSValue.str "USDT")] ≠
      Except.ok (String.intercalate "&" ([("category", JSValue.str "linear"),
        ("limit", JSValue.num (JSNum.ofNat 50)),
        ("settleCoin", JSValue.str "USDT")].map Prod.fst))) :=
  ⟨by decide,
    signed_query_misses_order_sensitive_wire
      (fun p => String.intercalate "&" (p.map Prod.fst)) _ _ (by decide) (by decide) (by decide)⟩

/-- C1, at the failing input. `getClosedPnl({limit: 50})` calls `callBybitAPI`
with `{category: 'linear', settleCoin: 'USDT', limit: 50}`. The object handed
to the HTTP client as `params` keeps that property order, while the query
string that is signed lists `limit` before `settleCoin`; the signer's own
encoder applied to the object that is sent gives a different string. The
stripping of `null` and `undefined` parameters, which both uses share, does
not reorder what it keeps. -/
theorem callBybitAPI_signed_query_differs_from_sent :
    closedPnlParams [("limit", JSValue.num (JSNum.ofNat 50))] =
      [("category", JSValue.str "linear"), ("settleCoin", JSValue.str "USDT"),
       ("limit", JSValue.num (JSNum.ofNat 50))] ∧
    (callBybitAPIRequest "KEY" "secret" "1700000000000" "position/closed-pnl"
        (closedPnlParams [("limit", JSValue.num (JSNum.ofNat 50))])).map AxiosConfig.params =
      Except.ok [("category", JSValue.str "linear"), ("settleCoin", JSValue.str "USDT"),
       ("limit", JSValue.num (JSNum.ofNat 50))] ∧
    queryString (cleanParams (closedPnlParams [("limit", JSValue.num (JSNum.ofNat 50))])) =
      Except.ok "category=linear&limit=50&settleCoin=USDT" ∧
    urlSearchParamsToString
      [("category", JSValue.str "linear"), ("settleCoin", JSValue.str "USDT"),
       ("limit", JSValue.num (JSNum.ofNat 50))] =
      Except.ok "category=linear&settleCoin=USDT&limit=50" ∧
    cleanParams [("symbol", JSValue.undefined), ("settleCoin", JSValue.str "USDT"),
        ("cursor", JSValue.null), ("category", JSValue.str "linear")] =
      [("settleCoin", JSValue.str "USDT"), ("category", JSValue.str "linear")] := by
  refine ⟨by decide, by decide, by decide, by decide, by decide⟩

end BybitBot
